import Mathlib

/-!
Verification development for the 2d-sdf renderer (src/render.c, src/main.c).

The C sources are shallowly embedded: `float` values are modelled as real
numbers (`ℝ`), C structs as Lean structures, in-place array writes as
functional updates of `ℕ → _` fields, and the line parser as a pure
function from the scene state and the input line to a result code and the
new scene state.  Pointers into a layer's geometry array (`Geom*` fields of
`Segment` and `Bezier`) are modelled as the array index the pointer
resolves to, dereferenced against the owning layer.  Division is the total
real division of Lean (division by zero yields 0); places where the C
program would produce IEEE NaN or Inf are called out in comments.
-/

set_option maxHeartbeats 4000000
set_option maxRecDepth 4096

noncomputable section

/-- Constants from render.c. -/
def MAX_GEOMS_PER_LAYER : ℕ := 500

def MAX_LAYER : ℕ := 5

def BEZIER_LUT_SIZE : ℕ := 31

def MAX_BEZIER_POINT : ℕ := 11

def BEZIER_MAX_ITERATIONS : ℕ := 10

def BEZIER_EPSILON : ℝ := 1e-6

def SMOOTH_MIN_FACTOR : ℝ := 1.5

/-- Largest finite IEEE single-precision value, `(2 - 2^-23) * 2^127`. -/
def FLT_MAX : ℝ := 2 ^ 128 - 2 ^ 104

/-- Return codes from render.h. -/
def OK : ℤ := 0

def E_BOUND_REACHED : ℤ := -1

def E_PARSE_UNSUPPORTED : ℤ := -10

def E_PARSE_NUMBER : ℤ := -11

def E_PARSE_ISEGMENT_BAD_INDEX : ℤ := -12

def E_PARSE_NEED_LAYER : ℤ := -13

/-- Modelling artifact: result code for exhaustion of the recursion fuel of
the embedded parser.  The C parser recurses on the strictly increasing
cursor, so with fuel at least the line length this code is unreachable. -/
def E_FUEL : ℤ := -99

/-- The clamp macro of render.c: `max(VMIN, min(VMAX, V))`. -/
def clamp (v vmin vmax : ℝ) : ℝ := max vmin (min vmax v)

/-- The mix macro of render.c: linear interpolation `X*(1-A) + Y*A`. -/
def mix (x y a : ℝ) : ℝ := x * (1 - a) + y * a

/-- `float[4]` RGBA color: components c0..c3 model indices 0..3. -/
@[ext]
structure Col4 where
  c0 : ℝ
  c1 : ℝ
  c2 : ℝ
  c3 : ℝ

/-- The mix4 macro of render.c, componentwise `mix`. -/
def mix4 (x y : Col4) (a : ℝ) : Col4 :=
  ⟨mix x.c0 y.c0 a, mix x.c1 y.c1 a, mix x.c2 y.c2 a, mix x.c3 y.c3 a⟩

/-- struct Vec2, a float pair. -/
abbrev Vec2 : Type := ℝ × ℝ

def add2 (a b : Vec2) : Vec2 := (a.1 + b.1, a.2 + b.2)

def sub2 (a b : Vec2) : Vec2 := (a.1 - b.1, a.2 - b.2)

def mul2 (a : Vec2) (s : ℝ) : Vec2 := (a.1 * s, a.2 * s)

def dot2 (a b : Vec2) : ℝ := a.1 * b.1 + a.2 * b.2

def length2 (p : Vec2) : ℝ := Real.sqrt (p.1 * p.1 + p.2 * p.2)

def distance2 (a b : Vec2) : ℝ := length2 (sub2 a b)

def squaredDistance2 (a b : Vec2) : ℝ := dot2 (sub2 a b) (sub2 a b)

/-- lerp2 of the sources: componentwise `mix` between two Vec2. -/
def lerp2 (a b : Vec2) (t : ℝ) : Vec2 := (mix a.1 b.1 t, mix a.2 b.2 t)

/-- struct RichDistance: a signed distance with an RGBA color. -/
@[ext]
structure RichDistance where
  d : ℝ
  rgba : Col4

/-- DEFAULT_RD: distance FLT_MAX, transparent black. -/
def DEFAULT_RD : RichDistance := ⟨FLT_MAX, ⟨0, 0, 0, 0⟩⟩

/-- Smooth min using the quadratic method (sminq of render.c).  Returns the
blended distance and a color mixing weight, packed in a Vec2 as the source
does. -/
def sminq (a b k : ℝ) : Vec2 :=
  let h : ℝ := 1 - min (|a - b| / (6 * k)) 1
  let w : ℝ := h * h * h
  let m : ℝ := w * 0.5
  let s : ℝ := w * k
  if a < b then (a - s, m) else (b - s, 1 - m)

/-- sdMin of render.c: keep whichever RichDistance has the smaller distance;
on a tie the second argument is returned. -/
def sdMin (a b : RichDistance) : RichDistance := if a.d < b.d then a else b

/-- sdSmoothMin of render.c (smoothing factor SMOOTH_MIN_FACTOR). -/
def sdSmoothMin (a b : RichDistance) : RichDistance :=
  let sd := sminq a.d b.d SMOOTH_MIN_FACTOR
  ⟨sd.1, mix4 a.rgba b.rgba sd.2⟩

/-- opRound of render.c: uniform SDF offset by radius r. -/
def opRound (rd : RichDistance) (r : ℝ) : RichDistance := ⟨rd.d - r, rd.rgba⟩

/-- struct Point: a position (in pixel coordinates after parsing) and a
color. -/
structure Point where
  v : Vec2
  rgba : Col4

/-- sdPoint of render.c; the query point's position is passed as a Vec2. -/
def sdPoint (p : Vec2) (a : Point) : RichDistance :=
  ⟨length2 (sub2 p a.v), a.rgba⟩

/-- struct Bbox: axis-aligned box given by bottom-left and upper-right
corners. -/
structure Bbox where
  bl : Vec2
  ur : Vec2

/-- distanceBbox of render.c: a lower bound on the distance from (x,y) to
the box when outside, -1 when inside.  The four sides are tested in the
fixed source order. -/
def distanceBbox (bbox : Bbox) (x y : ℝ) : ℝ :=
  if x < bbox.bl.1 then bbox.bl.1 - x
  else if y < bbox.bl.2 then bbox.bl.2 - y
  else if x > bbox.ur.1 then x - bbox.ur.1
  else if y > bbox.ur.2 then y - bbox.ur.2
  else -1

/-!  De Casteljau evaluation (bezier and bezier_derivative of render.c).
The C code keeps the control points in a `temp` array and performs
`size - 1` in-place reduction rounds; one round maps the array
`v0, ..., v(m-1)` to `lerp2(v0,v1,t), ..., lerp2(v(m-2),v(m-1),t)`, which
is `zipWith (lerp2 . . t)` of the list with its tail.  -/

/-- Combine consecutive elements of a list: `pairZip f [v0, v1, v2, ...] =
[f v0 v1, f v1 v2, ...]`.  Embeds one in-place update round of the C
`temp` array. -/
def pairZip (f : Vec2 → Vec2 → Vec2) (l : List Vec2) : List Vec2 :=
  List.zipWith f l l.tail

/-- One De Casteljau reduction round at parameter t. -/
def bezierStep (t : ℝ) (l : List Vec2) : List Vec2 :=
  pairZip (fun a b => lerp2 a b t) l

/-- `bezierAux t n l` performs n reduction rounds and returns the first
element (the C code's `temp[0]`; (0,0) stands for the uninitialized read
the C code would make on an empty array). -/
def bezierAux (t : ℝ) : ℕ → List Vec2 → Vec2
  | 0, l => l.headD (0, 0)
  | n + 1, l => bezierAux t n (bezierStep t l)

/-- bezier of render.c: De Casteljau evaluation of the control points l at
parameter t (`size - 1` reduction rounds, then `temp[0]`). -/
def bezier (t : ℝ) (l : List Vec2) : Vec2 := bezierAux t (l.length - 1) l

/-- Consecutive control-point differences `P[i+1] - P[i]`. -/
def diffs (l : List Vec2) : List Vec2 := pairZip (fun a b => sub2 b a) l

/-- The initial `temp` array of bezier_derivative: `size * (P[i+1] - P[i])`.
Note the factor is the control-point count `size`, as in the source. -/
def scaledDiffs (l : List Vec2) : List Vec2 :=
  pairZip (fun a b => mul2 (sub2 b a) (l.length : ℝ)) l

/-- bezier_derivative of render.c: the scaled difference array reduced by
`size - 2` De Casteljau rounds (one fewer point, one fewer round). -/
def bezier_derivative (t : ℝ) (l : List Vec2) : Vec2 :=
  bezierAux t ((scaledDiffs l).length - 1) (scaledDiffs l)

/-- The Newton refinement loop of sdApproximateBezier, with the iteration
count as fuel (the C loop runs BEZIER_MAX_ITERATIONS times unless it
breaks).  A step leaving [0,1] is clamped to the boundary and the loop
stops, as in the source. -/
def newtonIter (l : List Vec2) (q : Vec2) : ℕ → ℝ → ℝ
  | 0, t => t
  | n + 1, t =>
    let point := bezier t l
    let derivative := bezier_derivative t l
    let diff := sub2 point q
    let numerator := dot2 diff derivative
    let denominator := dot2 derivative derivative
    if |numerator| < BEZIER_EPSILON * denominator then t
    else
      let t_new := t - numerator / denominator
      if t_new < 0 then 0
      else if t_new > 1 then 1
      else newtonIter l q n t_new

/-- The LUT seeding scan of sdApproximateBezier: over the 31 stored LUT
entries, track the squared distance minimizer (strict improvement, so the
first minimizer wins). -/
def lutScan (q : Vec2) (lut : ℕ → Vec2) : ℝ × ℕ :=
  (List.range BEZIER_LUT_SIZE).foldl
    (fun acc i =>
      let dsq := squaredDistance2 (lut i) q
      if dsq < acc.1 then (dsq, i) else acc)
    (FLT_MAX, 0)

/-- The final Newton-refined parameter of sdApproximateBezier. -/
def newtonFinal (q : Vec2) (ctrl : List Vec2) (lut : ℕ → Vec2) : ℝ :=
  newtonIter ctrl q BEZIER_MAX_ITERATIONS
    (((lutScan q lut).2 : ℝ) / ((BEZIER_LUT_SIZE : ℝ) - 1))

/-- sdApproximateBezier of render.c: LUT seed, Newton refinement, exact
distance to the resulting curve point.  `col` is the color of the first
control point (resolved by the caller, since the C code reads it through
the stored pointer). -/
def sdApproximateBezier (q : Vec2) (ctrl : List Vec2) (lut : ℕ → Vec2)
    (col : Col4) : RichDistance :=
  ⟨distance2 (bezier (newtonFinal q ctrl lut) ctrl) q, col⟩

/-!  Scene data model (structs Geom, Layer, Scene of render.c).  The C
structs keep every variant's fields side by side; the embedding does the
same.  Fixed-size arrays (`geoms[500]`, `layer[5]`, `points[11]`,
`lut[31]`) are modelled as total functions from ℕ, with the separate
`size` fields giving the committed prefix, exactly as in the source; out
of range slots hold arbitrary (in C: uninitialized) data that the
renderer never reads. -/

/-- struct Segment: two pointers to Point geoms of the same layer,
modelled as the geom indices they resolve to. -/
structure SegmentRef where
  a : ℕ
  b : ℕ

/-- struct Bezier: control-point references, their count, and the stored
lookup table. -/
structure BezierRef where
  points : ℕ → ℕ
  bsize : ℕ
  lut : ℕ → Vec2

/-- struct Geom: a type tag with all variant payloads present, the
rounding radius and the derived bounding box. -/
structure Geom where
  gtype : ℕ
  point : Point
  segment : SegmentRef
  bezier : BezierRef
  round_r : ℝ
  bbox : Bbox

/-- struct Layer. -/
structure Layer where
  fusion : ℤ
  geoms : ℕ → Geom
  size : ℕ
  bbox : Bbox

/-- struct Scene. -/
structure Scene where
  layers : ℕ → Layer
  size : ℕ

/-- sdSegment of render.c; `p` is the query position, `ag`/`bg` the two
endpoint geoms reached through the stored pointers.  In the color
computation, real division by zero yields 0 in this model; the C program
instead produces IEEE NaN/Inf there (see the C3 analysis). -/
def sdSegment (p : Vec2) (ag bg : Geom) : RichDistance :=
  let a := ag.point.v
  let b := bg.point.v
  let pa := sub2 p a
  let ba := sub2 b a
  let h := clamp (dot2 pa ba / dot2 ba ba) 0 1
  let dab := length2 (sub2 b a)
  let ar := ag.round_r / dab
  let br := bg.round_r / dab
  let ch := clamp (h - ar) 0 (1 - (ar + br)) / (1 - (ar + br))
  ⟨length2 (sub2 pa (mul2 ba h)), mix4 ag.point.rgba bg.point.rgba ch⟩

/-- The control points of a Bezier geom, resolved through the owning
layer (the C code reads them through the stored `Geom*` pointers). -/
def resolveCtrl (L : Layer) (bz : BezierRef) : List Vec2 :=
  (List.range bz.bsize).map fun i => (L.geoms (bz.points i)).point.v

/-- One arm of the geometry switch of sdRenderLayer (render.c), without
the bounding-box pruning: the exact rounded RichDistance of one geom. -/
def evalGeomExact (L : Layer) (g : Geom) (x y : ℝ) : RichDistance :=
  if g.gtype = 0 then opRound (sdPoint (x, y) g.point) g.round_r
  else if g.gtype = 1 then
    opRound (sdSegment (x, y) (L.geoms g.segment.a) (L.geoms g.segment.b)) g.round_r
  else if g.gtype = 2 then
    opRound
      (sdApproximateBezier (x, y) (resolveCtrl L g.bezier) g.bezier.lut
        (L.geoms (g.bezier.points 0)).point.rgba)
      g.round_r
  else DEFAULT_RD

/-- One arm of the geometry switch of sdRenderLayer (render.c), with the
per-geom bounding-box pruning: segments and beziers whose box lower bound
exceeds `SMOOTH_MIN_FACTOR * 5` contribute the box lower bound with the
DEFAULT_RD color instead of their exact distance. -/
def evalGeomPruned (L : Layer) (g : Geom) (x y : ℝ) : RichDistance :=
  if g.gtype = 0 then opRound (sdPoint (x, y) g.point) g.round_r
  else if g.gtype = 1 then
    let dbb := distanceBbox g.bbox x y
    if dbb - SMOOTH_MIN_FACTOR * 5 ≤ 0 then
      opRound (sdSegment (x, y) (L.geoms g.segment.a) (L.geoms g.segment.b)) g.round_r
    else ⟨dbb, DEFAULT_RD.rgba⟩
  else if g.gtype = 2 then
    let dbb := distanceBbox g.bbox x y
    if dbb - SMOOTH_MIN_FACTOR * 5 ≤ 0 then
      opRound
        (sdApproximateBezier (x, y) (resolveCtrl L g.bezier) g.bezier.lut
          (L.geoms (g.bezier.points 0)).point.rgba)
        g.round_r
    else ⟨dbb, DEFAULT_RD.rgba⟩
  else DEFAULT_RD

/-- The fusion switch of sdRenderLayer: F_MIN = 0 folds with sdMin,
F_SMIN = 1 with sdSmoothMin, any other tag leaves the accumulator. -/
def fuse (fusion : ℤ) (d gd : RichDistance) : RichDistance :=
  if fusion = 0 then sdMin d gd
  else if fusion = 1 then sdSmoothMin d gd
  else d

/-- The primitive fold of sdRenderLayer, seeded with DEFAULT_RD. -/
def layerFold (fusion : ℤ) (rds : List RichDistance) : RichDistance :=
  rds.foldl (fuse fusion) DEFAULT_RD

/-- sdRenderLayer of render.c; returns the output pixel (RGB plus
coverage alpha) and the layer distance.  When the query point is outside
the layer's bounding box the whole primitive loop is skipped. -/
def sdRenderLayer (L : Layer) (x y : ℝ) : Col4 × ℝ :=
  let dbb := distanceBbox L.bbox x y
  if 0 < dbb then (⟨0, 0, 0, 0⟩, dbb)
  else
    let d := layerFold L.fusion
      ((List.range L.size).map fun i => evalGeomPruned L (L.geoms i) x y)
    (⟨d.rgba.c0, d.rgba.c1, d.rgba.c2, clamp (-d.d) 0 1⟩, d.d)

/-- Reference evaluation of a layer with no bounding-box pruning at all:
every primitive's exact distance function always runs (the fold and
output shaping are those of sdRenderLayer).  This is the unpruned
comparator of the refinement claim C2. -/
def sdRenderLayerUnpruned (L : Layer) (x y : ℝ) : Col4 × ℝ :=
  let d := layerFold L.fusion
    ((List.range L.size).map fun i => evalGeomExact L (L.geoms i) x y)
  (⟨d.rgba.c0, d.rgba.c1, d.rgba.c2, clamp (-d.d) 0 1⟩, d.d)

/-- sdRenderScene of render.c: every layer independently, the scene
distance is the minimum layer distance, colors composite additively
weighted by coverage, clamped per channel. -/
def sdRenderScene (s : Scene) (x y : ℝ) : (ℝ × ℝ × ℝ) × ℝ :=
  let rs := (List.range s.size).map fun i => sdRenderLayer (s.layers i) x y
  let dist := rs.foldl (fun a r => min a r.2) FLT_MAX
  let p := rs.foldl
    (fun (acc : ℝ × ℝ × ℝ) r =>
      (acc.1 + r.1.c0 * r.1.c3, acc.2.1 + r.1.c1 * r.1.c3, acc.2.2 + r.1.c2 * r.1.c3))
    (0, 0, 0)
  ((clamp p.1 0 1, clamp p.2.1 0 1, clamp p.2.2 0 1), dist)

/-- The inner pixel loop of render_canvas for one row, emitting the
(x, y, rgb) triples passed to the pixel callback.  `fuel` counts the
remaining pixels of the row (canvas_width at the start).  Pixels below
the skip cursor emit the freshly zero-initialized local pixel. -/
def rowAux (s : Scene) (w y : ℕ) : ℕ → ℕ → ℕ → List (ℕ × ℕ × (ℝ × ℝ × ℝ))
  | 0, _, _ => []
  | fuel + 1, x, next_pixel =>
    if next_pixel ≤ x then
      let r := sdRenderScene s (x : ℝ) (y : ℝ)
      (x, y, r.1) :: rowAux s w y fuel (x + 1) (x + (⌊clamp r.2 0 (w : ℝ)⌋).toNat)
    else
      (x, y, ((0 : ℝ), (0 : ℝ), (0 : ℝ))) :: rowAux s w y fuel (x + 1) next_pixel

/-- render_canvas of render.c: row-major emission of all pixels, with the
horizontal skip optimization (`(int)clamp(last_distance, 0, canvas_width)`
is `⌊·⌋.toNat` of a nonnegative real). -/
def render_canvas (s : Scene) (w h : ℕ) : List (ℕ × ℕ × (ℝ × ℝ × ℝ)) :=
  (List.range h).flatMap fun y => rowAux s w y w 0 0

/-- Reference row loop following the words of spec §4.6: for x below the
skip cursor, reuse the previous evaluated pixel's color unmodified
(carried in `last`); at x at or past the cursor, evaluate the scene and
advance the cursor by the clamped floor of the scene distance. -/
def rowAuxSpec (s : Scene) (w y : ℕ) :
    ℕ → ℕ → ℕ → (ℝ × ℝ × ℝ) → List (ℕ × ℕ × (ℝ × ℝ × ℝ))
  | 0, _, _, _ => []
  | fuel + 1, x, next_pixel, last =>
    if next_pixel ≤ x then
      let r := sdRenderScene s (x : ℝ) (y : ℝ)
      (x, y, r.1) ::
        rowAuxSpec s w y fuel (x + 1) (x + (⌊clamp r.2 0 (w : ℝ)⌋).toNat) r.1
    else
      (x, y, last) :: rowAuxSpec s w y fuel (x + 1) next_pixel last

/-- Spec §4.6 rendering of the whole canvas: as render_canvas, but skipped
pixels repeat the most recently evaluated pixel's color of their row. -/
def render_canvas_spec (s : Scene) (w h : ℕ) : List (ℕ × ℕ × (ℝ × ℝ × ℝ)) :=
  (List.range h).flatMap fun y => rowAuxSpec s w y w 0 0 (0, 0, 0)

/-!  The instruction parser of render.c.  Lines are lists of characters
(the terminating NUL that read_scene guarantees at index `line_size` is
modelled by the default character of `List.getD`).  Each parse function
returns the C result code, the final cursor, and the updated out
parameter; the scene-mutating functions return the updated scene. -/

/-- The global rendering parameters `_canvas_width`, `_canvas_height`,
`_diag` set by read_scene, threaded explicitly. -/
structure Cfg where
  cw : ℝ
  ch : ℝ
  diag : ℝ

/-- The configuration read_scene derives from the canvas size. -/
def mkCfg (w h : ℕ) : Cfg :=
  ⟨w, h, Real.sqrt ((w : ℝ) * w + (h : ℝ) * h)⟩

/-- Value of a digit string, most significant first. -/
def natOfDigits (l : List Char) : ℕ :=
  l.foldl (fun a c => a * 10 + (c.toNat - 48)) 0

/-- Magnitude part of the atof model: leading digits, then an optional
fraction after a decimal point. -/
def atofMag (s : List Char) : ℝ :=
  let ip := s.takeWhile fun c => c.isDigit
  let rest := s.drop ip.length
  let frac : ℝ :=
    match rest with
    | '.' :: r =>
      let fp := r.takeWhile fun c => c.isDigit
      (natOfDigits fp : ℝ) / 10 ^ fp.length
    | _ => 0
  (natOfDigits ip : ℝ) + frac

/-- Model of the libc `atof` used by parse_number, on the token shapes
this grammar produces: an optional sign, digits, an optional decimal
fraction.  Unparsable input yields 0 as atof does; exponent notation is
not modelled. -/
def atofModel : List Char → ℝ
  | '-' :: r => -(atofMag r)
  | '+' :: r => atofMag r
  | s => atofMag s

/-- The C `(int)` cast of a float: truncation toward zero. -/
def truncR (x : ℝ) : ℤ := if x < 0 then -⌊-x⌋ else ⌊x⌋

/-- parse_number of render.c: scan up to the next space or closing paren
(at most 32 characters, not past `stop`), fail unless the scan stopped on
a space or closing paren, and convert with atof. -/
def parse_number (line : List Char) (cursor stop : ℕ) : ℤ × ℕ × ℝ :=
  if stop < cursor then (E_PARSE_NUMBER, cursor, 0)
  else
    let tok := ((line.drop cursor).take (min (stop - cursor) 32)).takeWhile
      fun c => (c != ' ') && (c != ')')
    let c2 := cursor + tok.length
    let ch := line.getD c2 (Char.ofNat 0)
    if ch = ' ' ∨ ch = ')' then (OK, c2, atofModel tok)
    else (E_PARSE_NUMBER, c2, 0)

/-- parse_int of render.c: parse_number followed by an integrality check
of the `(int)` cast. -/
def parse_int (line : List Char) (cursor stop : ℕ) : ℤ × ℕ × ℤ :=
  let r := parse_number line cursor stop
  if r.1 ≠ OK then (r.1, r.2.1, 0)
  else
    let n := truncR r.2.2
    if (n : ℝ) ≠ r.2.2 then (E_PARSE_NUMBER, r.2.1, n)
    else (OK, r.2.1, n)

/-- parse_color of render.c: `COLOR(N N N N)`, written into the point's
rgba one channel at a time (so an error keeps the channels already
parsed, as the C out-parameter writes do). -/
def parse_color (line : List Char) (cursor stop : ℕ) (p : Point) : ℤ × ℕ × Point :=
  let r0 := parse_number line (cursor + 6) stop
  if r0.1 ≠ OK then (r0.1, r0.2.1, p)
  else
    let p0 := { p with rgba := { p.rgba with c0 := r0.2.2 } }
    let r1 := parse_number line (r0.2.1 + 1) stop
    if r1.1 ≠ OK then (r1.1, r1.2.1, p0)
    else
      let p1 := { p0 with rgba := { p0.rgba with c1 := r1.2.2 } }
      let r2 := parse_number line (r1.2.1 + 1) stop
      if r2.1 ≠ OK then (r2.1, r2.2.1, p1)
      else
        let p2 := { p1 with rgba := { p1.rgba with c2 := r2.2.2 } }
        let r3 := parse_number line (r2.2.1 + 1) stop
        if r3.1 ≠ OK then (r3.1, r3.2.1, p2)
        else
          let p3 := { p2 with rgba := { p2.rgba with c3 := r3.2.2 } }
          (OK, r3.2.1 + 1, p3)

/-- parse_point of render.c: `POINT(N N COLOR(...))` with the color
optional (default magenta), the position scaled to pixel coordinates at
the end. -/
def parse_point (cfg : Cfg) (line : List Char) (cursor stop : ℕ) (p : Point) :
    ℤ × ℕ × Point :=
  let r0 := parse_number line (cursor + 6) stop
  if r0.1 ≠ OK then (r0.1, r0.2.1, p)
  else
    let p0 := { p with v := (r0.2.2, p.v.2) }
    let r1 := parse_number line (r0.2.1 + 1) stop
    if r1.1 ≠ OK then (r1.1, r1.2.1, p0)
    else
      let p1 := { p0 with v := (p0.v.1, r1.2.2) }
      let cursor2 := r1.2.1 + 1
      let rc : ℤ × ℕ × Point :=
        if line.getD cursor2 (Char.ofNat 0) = 'C' then
          parse_color line cursor2 stop p1
        else (OK, cursor2, { p1 with rgba := ⟨1, 0, 1, 1⟩ })
      if rc.1 ≠ OK then (rc.1, rc.2.1, rc.2.2)
      else
        let pc := rc.2.2
        (OK, rc.2.1 + 1, { pc with v := (pc.v.1 * cfg.cw, pc.v.2 * cfg.ch) })

/-- parse_segment of render.c: two Point geom indices of the current
layer, each validated for range and kind before the reference is
stored. -/
def parse_segment (L : Layer) (line : List Char) (cursor stop : ℕ)
    (sg : SegmentRef) : ℤ × ℕ × SegmentRef :=
  let r0 := parse_int line (cursor + 8) stop
  if r0.1 ≠ OK then (r0.1, r0.2.1, sg)
  else
    let r1 := parse_int line (r0.2.1 + 1) stop
    if r1.1 ≠ OK then (r1.1, r1.2.1, sg)
    else
      let cursor2 := r1.2.1 + 1
      let ia := r0.2.2
      let ib := r1.2.2
      if 0 ≤ ia ∧ ia.toNat < L.size ∧ (L.geoms ia.toNat).gtype = 0 then
        let sg1 := { sg with a := ia.toNat }
        if 0 ≤ ib ∧ ib.toNat < L.size ∧ (L.geoms ib.toNat).gtype = 0 then
          (OK, cursor2, { sg1 with b := ib.toNat })
        else (E_PARSE_ISEGMENT_BAD_INDEX, cursor2, sg1)
      else (E_PARSE_ISEGMENT_BAD_INDEX, cursor2, sg)

/-- The control-point loop of parse_bezier, with the remaining iteration
count (at most MAX_BEZIER_POINT) as fuel; the guard also stops at the end
of the line or once the character before the cursor is the closing
paren. -/
def parse_bezier_loop (L : Layer) (line : List Char) (stop : ℕ) :
    ℕ → ℕ → BezierRef → ℤ × ℕ × BezierRef
  | 0, cursor, bz => (OK, cursor, bz)
  | fuel + 1, cursor, bz =>
    if cursor < stop ∧ line.getD (cursor - 1) (Char.ofNat 0) ≠ ')' then
      let r := parse_int line cursor stop
      if r.1 ≠ OK then (r.1, r.2.1, bz)
      else
        let cursor2 := r.2.1 + 1
        let index := r.2.2
        if 0 ≤ index ∧ index.toNat < L.size ∧ (L.geoms index.toNat).gtype = 0 then
          parse_bezier_loop L line stop fuel cursor2
            { bz with
              points := Function.update bz.points bz.bsize index.toNat
              bsize := bz.bsize + 1 }
        else (E_PARSE_ISEGMENT_BAD_INDEX, cursor2, bz)
    else (OK, cursor, bz)

/-- parse_bezier of render.c: reset the size, read up to
MAX_BEZIER_POINT control point indices, then recompute the whole lookup
table from the stored control points. -/
def parse_bezier (L : Layer) (line : List Char) (cursor stop : ℕ)
    (bz : BezierRef) : ℤ × ℕ × BezierRef :=
  let r := parse_bezier_loop L line stop MAX_BEZIER_POINT (cursor + 7) { bz with bsize := 0 }
  if r.1 ≠ OK then (r.1, r.2.1, r.2.2)
  else
    let bz1 := r.2.2
    let ctrl := resolveCtrl L bz1
    (OK, r.2.1,
      { bz1 with lut := fun i =>
          if i < BEZIER_LUT_SIZE then bezier ((i : ℝ) / ((BEZIER_LUT_SIZE : ℝ) - 1)) ctrl
          else bz1.lut i })

/-- parse_layer of render.c: `LAYER(N)` starts a fresh empty layer with
fusion mode N. -/
def parse_layer (s : Scene) (line : List Char) (cursor stop : ℕ) : ℤ × ℕ × Scene :=
  let r := parse_int line (cursor + 6) stop
  if r.1 ≠ OK then (r.1, r.2.1, s)
  else
    (OK, r.2.1 + 1,
      ⟨Function.update s.layers s.size
        { s.layers s.size with fusion := r.2.2, size := 0 }, s.size + 1⟩)

/-- set_bbox_point of render.c. -/
def set_bbox_point (g : Geom) : Geom :=
  { g with bbox := ⟨g.point.v, g.point.v⟩ }

/-- set_bbox_segment of render.c (reads the endpoints through the stored
references). -/
def set_bbox_segment (L : Layer) (g : Geom) : Geom :=
  let av := (L.geoms g.segment.a).point.v
  let bv := (L.geoms g.segment.b).point.v
  { g with bbox :=
      ⟨(min av.1 bv.1, min av.2 bv.2), (max av.1 bv.1, max av.2 bv.2)⟩ }

/-- set_bbox_bezier of render.c: min/max over all stored control points,
starting from the first. -/
def set_bbox_bezier (L : Layer) (g : Geom) : Geom :=
  let p0 := (L.geoms (g.bezier.points 0)).point.v
  let rest := (List.range (g.bezier.bsize - 1)).map
    fun i => (L.geoms (g.bezier.points (i + 1))).point.v
  { g with bbox :=
      ⟨rest.foldl (fun a v => (min a.1 v.1, min a.2 v.2)) p0,
       rest.foldl (fun a v => (max a.1 v.1, max a.2 v.2)) p0⟩ }

/-- Replace layer li of a scene. -/
def modLayer (s : Scene) (li : ℕ) (f : Layer → Layer) : Scene :=
  ⟨Function.update s.layers li (f (s.layers li)), s.size⟩

/-- Update geom slot gi of layer li in place, as a C write through
`&layer->geoms[gi]` does. -/
def modGeom (s : Scene) (li gi : ℕ) (f : Geom → Geom) : Scene :=
  modLayer s li fun L => { L with geoms := Function.update L.geoms gi (f (L.geoms gi)) }

mutual

/-- parse_round of render.c: store the parsed radius in the target geom
slot, parse the wrapped instruction recursively, then scale the radius by
the canvas diagonal and inflate the geom's box by `ceil(round_r) + 1` on
all sides.  `li`/`gi` locate the slot the C `Geom*` argument points
to. -/
def parse_round (cfg : Cfg) (fuel : ℕ) (s : Scene) (line : List Char)
    (cursor stop : ℕ) (li gi : ℕ) : ℤ × ℕ × Scene :=
  let r := parse_number line (cursor + 6) stop
  if r.1 ≠ OK then (r.1, r.2.1, s)
  else
    let s1 := modGeom s li gi fun g => { g with round_r := r.2.2 }
    let r2 := parse_line cfg fuel s1 line (r.2.1 + 1) stop
    if r2.1 ≠ OK then (r2.1, r2.2.1, r2.2.2)
    else
      let s3 := modGeom r2.2.2 li gi fun g =>
        let rr := g.round_r * cfg.diag
        { g with
          round_r := rr
          bbox := ⟨(g.bbox.bl.1 - ((⌈rr⌉ : ℝ) + 1), g.bbox.bl.2 - ((⌈rr⌉ : ℝ) + 1)),
                   (g.bbox.ur.1 + ((⌈rr⌉ : ℝ) + 1), g.bbox.ur.2 + ((⌈rr⌉ : ℝ) + 1))⟩ }
      (OK, r2.2.1 + 1, s3)
termination_by (fuel, 1)

/-- parse_line of render.c: scan the instruction word, dispatch; geometry
instructions write into the slot just past the current layer's committed
geoms and commit it (size increment) only on success. -/
def parse_line (cfg : Cfg) (fuel : ℕ) (s : Scene) (line : List Char)
    (cursor stop : ℕ) : ℤ × ℕ × Scene :=
  match fuel with
  | 0 => (E_FUEL, cursor, s)
  | fuel + 1 =>
    let word := ((line.drop cursor).take (min (stop - cursor) 32)).takeWhile
      fun c => c != '('
    if word = "LAYER".toList then
      if MAX_LAYER ≤ s.size then (E_BOUND_REACHED, cursor, s)
      else parse_layer s line cursor stop
    else if s.size = 0 then (E_PARSE_NEED_LAYER, cursor, s)
    else
      let li := s.size - 1
      let gi := (s.layers li).size
      if MAX_GEOMS_PER_LAYER ≤ gi then (E_BOUND_REACHED, cursor, s)
      else if word = "ROUND".toList then
        parse_round cfg fuel s line cursor stop li gi
      else if word = "POINT".toList then
        let s1 := modGeom s li gi fun g => { g with gtype := 0 }
        let r := parse_point cfg line cursor stop ((s1.layers li).geoms gi).point
        let s2 := modGeom s1 li gi fun g => { g with point := r.2.2 }
        if r.1 ≠ OK then (r.1, r.2.1, s2)
        else
          let s3 := modGeom s2 li gi set_bbox_point
          (OK, r.2.1, modLayer s3 li fun l => { l with size := l.size + 1 })
      else if word = "SEGMENT".toList then
        let s1 := modGeom s li gi fun g => { g with gtype := 1 }
        let r := parse_segment (s1.layers li) line cursor stop
          ((s1.layers li).geoms gi).segment
        let s2 := modGeom s1 li gi fun g => { g with segment := r.2.2 }
        if r.1 ≠ OK then (r.1, r.2.1, s2)
        else
          let s3 := modGeom s2 li gi fun g => set_bbox_segment (s2.layers li) g
          (OK, r.2.1, modLayer s3 li fun l => { l with size := l.size + 1 })
      else if word = "BEZIER".toList then
        let s1 := modGeom s li gi fun g => { g with gtype := 2 }
        let r := parse_bezier (s1.layers li) line cursor stop
          ((s1.layers li).geoms gi).bezier
        let s2 := modGeom s1 li gi fun g => { g with bezier := r.2.2 }
        if r.1 ≠ OK then (r.1, r.2.1, s2)
        else
          let s3 := modGeom s2 li gi fun g => set_bbox_bezier (s2.layers li) g
          (OK, r.2.1, modLayer s3 li fun l => { l with size := l.size + 1 })
      else (E_PARSE_UNSUPPORTED, cursor, s)
termination_by (fuel, 0)

end

/-- A zero-filled Geom, standing for the arbitrary contents of the
uninitialized C arrays before they are written. -/
def emptyGeom : Geom :=
  ⟨0, ⟨(0, 0), ⟨0, 0, 0, 0⟩⟩, ⟨0, 0⟩, ⟨fun _ => 0, 0, fun _ => (0, 0)⟩, 0,
    ⟨(0, 0), (0, 0)⟩⟩

/-- A zero-filled Layer. -/
def emptyLayer : Layer := ⟨0, fun _ => emptyGeom, 0, ⟨(0, 0), (0, 0)⟩⟩

/-- The scene read_and_render starts from: size 0, storage contents
arbitrary (zero-filled in the model). -/
def emptyScene : Scene := ⟨fun _ => emptyLayer, 0⟩

/-- The line loop of read_scene: parse each (newline-stripped) line in
order, keeping whatever state parsing left behind when a line fails (the
C code only logs the error and continues). -/
def read_scene_lines (cfg : Cfg) (lines : List (List Char)) (s : Scene) : Scene :=
  lines.foldl (fun sc l => (parse_line cfg (l.length + 1) sc l 0 l.length).2.2) s

/-!  Derived shape predicates used to state the bounding-box claims.
They record exactly what the parser establishes for committed geoms:
the box is the set_bbox hull of the shape, inflated by `ceil(round_r)+1`
when the geom went through a ROUND instruction. -/

/-- The un-inflated bounding box the set_bbox functions compute for a
geom's shape (resolved against its layer). -/
def baseBbox (L : Layer) (g : Geom) : Bbox :=
  if g.gtype = 0 then (set_bbox_point g).bbox
  else if g.gtype = 1 then (set_bbox_segment L g).bbox
  else if g.gtype = 2 then (set_bbox_bezier L g).bbox
  else g.bbox

/-- The box inflation parse_round applies on all four sides. -/
def inflateBbox (b : Bbox) (m : ℝ) : Bbox :=
  ⟨(b.bl.1 - m, b.bl.2 - m), (b.ur.1 + m, b.ur.2 + m)⟩

/-- Box b1 lies inside box b2 (componentwise). -/
def bboxSub (b1 b2 : Bbox) : Prop :=
  b2.bl.1 ≤ b1.bl.1 ∧ b2.bl.2 ≤ b1.bl.2 ∧ b1.ur.1 ≤ b2.ur.1 ∧ b1.ur.2 ≤ b2.ur.2

/-- Shape of a committed geom as the parser leaves it: a known type tag,
a nonempty control sequence for beziers, and a bounding box that is the
shape's hull (plain geoms, radius 0) or the hull inflated by
`ceil(round_r)+1` (geoms wrapped in ROUND). -/
def GeomWF (L : Layer) (g : Geom) : Prop :=
  (g.gtype = 0 ∨ g.gtype = 1 ∨ g.gtype = 2) ∧
  (g.gtype = 2 → 1 ≤ g.bezier.bsize) ∧
  (g.bbox = baseBbox L g ∧ g.round_r = 0 ∨
    g.bbox = inflateBbox (baseBbox L g) ((⌈g.round_r⌉ : ℝ) + 1))

/-- Every committed geom of the layer is well-shaped and its box lies
inside the layer's box (the union box read_scene computes). -/
def LayerWF (L : Layer) : Prop :=
  ∀ i < L.size, GeomWF L (L.geoms i) ∧ bboxSub (L.geoms i).bbox L.bbox

/-- Observable state of the parser claims: number of layers, and per
committed layer its fusion mode, geom count and committed geoms.  Slots
beyond the committed counts are scratch storage (uninitialized in C). -/
def ObsEq (s1 s2 : Scene) : Prop :=
  s1.size = s2.size ∧
  ∀ li < s2.size,
    (s1.layers li).fusion = (s2.layers li).fusion ∧
    (s1.layers li).size = (s2.layers li).size ∧
    ∀ gi < (s2.layers li).size, (s1.layers li).geoms gi = (s2.layers li).geoms gi

/-- The storage invariant parse_bezier establishes for a committed geom:
if it is a Bezier, its control count is within capacity, its control
indices lie below the layer's committed count, and its lookup table is
the De Casteljau evaluation of the resolved control points at the
uniform parameters i/(BEZIER_LUT_SIZE - 1). -/
def BezWF (L : Layer) (g : Geom) : Prop :=
  g.gtype = 2 →
    g.bezier.bsize ≤ MAX_BEZIER_POINT ∧
    (∀ k < g.bezier.bsize, g.bezier.points k < L.size) ∧
    ∀ i < BEZIER_LUT_SIZE,
      g.bezier.lut i =
        bezier ((i : ℝ) / ((BEZIER_LUT_SIZE : ℝ) - 1)) (resolveCtrl L g.bezier)

/-- Every committed geom of every committed layer satisfies the Bezier
storage invariant. -/
def BezInv (s : Scene) : Prop :=
  ∀ li < s.size, ∀ gi < (s.layers li).size, BezWF (s.layers li) ((s.layers li).geoms gi)

/-!  Concrete example scenes used by counterexamples and witnesses. -/

/-- Example (SMIN): a rounded point at the origin, the two endpoints of a
vertical segment at x = 12, and the segment itself rounded by 3; its
inflated box has pruning distance 8 from the origin while its exact
rounded distance is 9. -/
def exGeomPoint : Geom :=
  { emptyGeom with
    gtype := 0
    point := ⟨(0, 0), ⟨1, 0, 0, 1⟩⟩
    round_r := 0.5
    bbox := ⟨(-2, -2), (2, 2)⟩ }

def exGeomEndA : Geom :=
  { emptyGeom with
    gtype := 0
    point := ⟨(12, 0), ⟨0, 1, 0, 1⟩⟩
    bbox := ⟨(12, 0), (12, 0)⟩ }

def exGeomEndB : Geom :=
  { emptyGeom with
    gtype := 0
    point := ⟨(12, 35), ⟨0, 0, 1, 1⟩⟩
    bbox := ⟨(12, 35), (12, 35)⟩ }

def exGeomSeg : Geom :=
  { emptyGeom with
    gtype := 1
    segment := ⟨1, 2⟩
    round_r := 3
    bbox := ⟨(8, -4), (16, 39)⟩ }

/-- The SMIN example layer: geoms 0..3 as above, box covering all of
them. -/
def exLayerSmin : Layer :=
  ⟨1,
    fun i =>
      if i = 0 then exGeomPoint
      else if i = 1 then exGeomEndA
      else if i = 2 then exGeomEndB
      else if i = 3 then exGeomSeg
      else emptyGeom,
    4, ⟨(-2, -4), (16, 39)⟩⟩

/-- The F_MIN example layer: a single plain point at (20, 0); at the
origin the whole layer is skipped by its box while the unpruned fold
returns the point's color with zero coverage. -/
def exLayerMin : Layer :=
  ⟨0,
    fun _ =>
      { emptyGeom with
        gtype := 0
        point := ⟨(20, 0), ⟨1, 0, 0, 1⟩⟩
        bbox := ⟨(20, 0), (20, 0)⟩ },
    1, ⟨(20, 0), (20, 0)⟩⟩

/-- Control points of the example Bezier used against claim C5: the
curve x(t) = 20t - 19t^2 on the x axis. -/
def exBezCtrl : List Vec2 := [(0, 0), (10, 0), (1, 0)]

/-- Its stored lookup table, as parse_bezier computes it. -/
def exBezLut : ℕ → Vec2 := fun i =>
  if i < BEZIER_LUT_SIZE then bezier ((i : ℝ) / ((BEZIER_LUT_SIZE : ℝ) - 1)) exBezCtrl
  else (0, 0)

/-!  Basic lemmas about the embedded operations. -/

theorem mix4_one (x y : Col4) : mix4 x y 1 = y := by
  ext <;> simp [mix4, mix]

theorem mix4_zero (x y : Col4) : mix4 x y 0 = x := by
  ext <;> simp [mix4, mix]

theorem FLT_MAX_big : (10 : ℝ) ≤ FLT_MAX := by
  norm_num [FLT_MAX]

/-- sdMin with the DEFAULT_RD seed is the identity on distances at most
FLT_MAX. -/
theorem sdMin_default (g : RichDistance) (h : g.d ≤ FLT_MAX) :
    sdMin DEFAULT_RD g = g := by
  rw [sdMin, if_neg]
  simp only [DEFAULT_RD]
  exact not_lt.mpr h

/-- sdSmoothMin with the DEFAULT_RD seed is the identity on distances at
least `6 * SMOOTH_MIN_FACTOR` below FLT_MAX: the smoothing weight
vanishes and the second argument survives verbatim. -/
theorem sdSmoothMin_default (g : RichDistance)
    (h : g.d ≤ FLT_MAX - 6 * SMOOTH_MIN_FACTOR) :
    sdSmoothMin DEFAULT_RD g = g := by
  have hk : (0 : ℝ) < 6 * SMOOTH_MIN_FACTOR := by norm_num [SMOOTH_MIN_FACTOR]
  have hlt : g.d < FLT_MAX := by linarith
  have habs : |DEFAULT_RD.d - g.d| = FLT_MAX - g.d := by
    rw [DEFAULT_RD, abs_of_nonneg] <;> simp <;> linarith
  have hge : (1 : ℝ) ≤ |DEFAULT_RD.d - g.d| / (6 * SMOOTH_MIN_FACTOR) := by
    rw [habs, le_div_iff hk]
    linarith
  have hmin : min (|DEFAULT_RD.d - g.d| / (6 * SMOOTH_MIN_FACTOR)) 1 = 1 :=
    min_eq_right hge
  have hbr : ¬ (DEFAULT_RD.d < g.d) := by
    rw [DEFAULT_RD]
    exact not_lt.mpr (le_of_lt hlt)
  rw [sdSmoothMin, sminq]
  simp only [hmin, hbr, if_false, sub_self]
  norm_num [mix4_one]

/-- Folding a single RichDistance into the DEFAULT_RD seed with either
fusion mode returns it unchanged. -/
theorem layerFold_single (g : RichDistance) (fusion : ℤ)
    (hf : fusion = 0 ∨ fusion = 1)
    (h : g.d ≤ FLT_MAX - 6 * SMOOTH_MIN_FACTOR) :
    layerFold fusion [g] = g := by
  have h' : g.d ≤ FLT_MAX := by
    have : (0 : ℝ) ≤ 6 * SMOOTH_MIN_FACTOR := by norm_num [SMOOTH_MIN_FACTOR]
    linarith
  rcases hf with hf | hf <;>
    simp [layerFold, fuse, hf, sdMin_default g h', sdSmoothMin_default g h]

/-- C10: the fold seed (FLT_MAX, transparent black) is a left identity
for both fusion operators on every RichDistance whose distance is at most
`FLT_MAX - 6k`, exactly in distance and in all four color channels, and
consequently a layer fold over a single primitive's rounded RichDistance
returns it verbatim. -/
theorem C10_default_rd_left_identity (g : RichDistance)
    (h : g.d ≤ FLT_MAX - 6 * SMOOTH_MIN_FACTOR) :
    sdMin DEFAULT_RD g = g ∧ sdSmoothMin DEFAULT_RD g = g ∧
      layerFold 0 [g] = g ∧ layerFold 1 [g] = g := by
  have h' : g.d ≤ FLT_MAX := by
    have : (0 : ℝ) ≤ 6 * SMOOTH_MIN_FACTOR := by norm_num [SMOOTH_MIN_FACTOR]
    linarith
  exact ⟨sdMin_default g h', sdSmoothMin_default g h,
    layerFold_single g 0 (Or.inl rfl) h, layerFold_single g 1 (Or.inr rfl) h⟩

/-- Witness for C10 at a concrete input. -/
theorem C10_default_rd_left_identity_witness :
    sdMin DEFAULT_RD ⟨5, ⟨1, 0, 0, 1⟩⟩ = ⟨5, ⟨1, 0, 0, 1⟩⟩ ∧
      sdSmoothMin DEFAULT_RD ⟨5, ⟨1, 0, 0, 1⟩⟩ = ⟨5, ⟨1, 0, 0, 1⟩⟩ ∧
      layerFold 0 [⟨5, ⟨1, 0, 0, 1⟩⟩] = ⟨5, ⟨1, 0, 0, 1⟩⟩ ∧
      layerFold 1 [⟨5, ⟨1, 0, 0, 1⟩⟩] = ⟨5, ⟨1, 0, 0, 1⟩⟩ :=
  C10_default_rd_left_identity ⟨5, ⟨1, 0, 0, 1⟩⟩
    (by norm_num [FLT_MAX, SMOOTH_MIN_FACTOR])

/-- C7 counterexample: sdMin is not commutative.  On a distance tie the
second argument wins, so two RichDistance values with equal distance 1
and different colors witness `sdMin a b ≠ sdMin b a`, refuting the
commutativity part of the claim. -/
theorem C7_sdMin_not_commutative :
    sdMin ⟨1, ⟨1, 0, 0, 1⟩⟩ ⟨1, ⟨0, 1, 0, 1⟩⟩ ≠
      sdMin ⟨1, ⟨0, 1, 0, 1⟩⟩ ⟨1, ⟨1, 0, 0, 1⟩⟩ := by
  simp only [sdMin, lt_self_iff_false, if_false]
  intro h
  have := congrArg (fun r => r.rgba.c0) h
  norm_num at this

/-- C7 as amended: sdMin is associative; it returns the input with the
strictly smaller distance verbatim, color included, and on a distance tie
it returns the second input; it commutes whenever the two distances
differ. -/
theorem C7_sdMin_algebra (a b c : RichDistance) :
    sdMin (sdMin a b) c = sdMin a (sdMin b c) ∧
      (a.d < b.d → sdMin a b = a) ∧
      (b.d ≤ a.d → sdMin a b = b) ∧
      (a.d ≠ b.d → sdMin a b = sdMin b a) := by
  refine ⟨?_, ?_, ?_, ?_⟩
  · simp only [sdMin]
    split_ifs <;> first | rfl | (exfalso; linarith)
  · intro h
    simp [sdMin, h]
  · intro h
    simp [sdMin, not_lt.mpr h]
  · intro h
    rcases lt_or_gt_of_ne h with h' | h' <;>
      simp [sdMin, h', asymm h', not_lt.mpr (le_of_lt h')]

/-- Witness for C7 at concrete inputs. -/
theorem C7_sdMin_algebra_witness :
    sdMin (sdMin ⟨1, ⟨1, 0, 0, 1⟩⟩ ⟨2, ⟨0, 1, 0, 1⟩⟩) ⟨3, ⟨0, 0, 1, 1⟩⟩ =
      sdMin ⟨1, ⟨1, 0, 0, 1⟩⟩ (sdMin ⟨2, ⟨0, 1, 0, 1⟩⟩ ⟨3, ⟨0, 0, 1, 1⟩⟩) ∧
      sdMin ⟨1, ⟨1, 0, 0, 1⟩⟩ ⟨2, ⟨0, 1, 0, 1⟩⟩ = ⟨1, ⟨1, 0, 0, 1⟩⟩ ∧
      sdMin ⟨1, ⟨1, 0, 0, 1⟩⟩ ⟨2, ⟨0, 1, 0, 1⟩⟩ =
        sdMin ⟨2, ⟨0, 1, 0, 1⟩⟩ ⟨1, ⟨1, 0, 0, 1⟩⟩ :=
  ⟨(C7_sdMin_algebra ⟨1, ⟨1, 0, 0, 1⟩⟩ ⟨2, ⟨0, 1, 0, 1⟩⟩ ⟨3, ⟨0, 0, 1, 1⟩⟩).1,
    (C7_sdMin_algebra ⟨1, ⟨1, 0, 0, 1⟩⟩ ⟨2, ⟨0, 1, 0, 1⟩⟩ ⟨3, ⟨0, 0, 1, 1⟩⟩).2.1
      (by norm_num),
    (C7_sdMin_algebra ⟨1, ⟨1, 0, 0, 1⟩⟩ ⟨2, ⟨0, 1, 0, 1⟩⟩ ⟨3, ⟨0, 0, 1, 1⟩⟩).2.2.2
      (by norm_num)⟩

/-- C3 evidence (code_bug): sdSegment performs the color-gradient
division unconditionally.  For a parser-accepted segment between (0,0)
and (4,0) whose endpoints both carry rounding radius 2, the denominator
`1 - (ar + br)` computed inside sdSegment is exactly 0, so the C program
evaluates `0.0f / 0.0f` there, which is IEEE NaN propagated into all four
color channels; the spec instead requires a deterministic fallback to an
endpoint color.  In this real-number model total division turns `0/0`
into 0, which is why the second conjunct lands on endpoint a's color.
The third conjunct shows the projection divisor `dot2(ba, ba)` is 0 for a
coincident-endpoint segment (`SEGMENT(0 0)` is accepted by the parser),
where the C program's distance itself becomes NaN. -/
theorem C3_sdSegment_division_by_zero_is_reached :
    1 - (({ emptyGeom with point := ⟨(0, 0), ⟨1, 0, 0, 1⟩⟩, round_r := 2 } : Geom).round_r /
          length2 (sub2 ((4 : ℝ), (0 : ℝ)) ((0 : ℝ), (0 : ℝ))) +
         ({ emptyGeom with point := ⟨(4, 0), ⟨0, 1, 0, 1⟩⟩, round_r := 2 } : Geom).round_r /
          length2 (sub2 ((4 : ℝ), (0 : ℝ)) ((0 : ℝ), (0 : ℝ)))) = 0 ∧
    (sdSegment (1, 0)
        { emptyGeom with point := ⟨(0, 0), ⟨1, 0, 0, 1⟩⟩, round_r := 2 }
        { emptyGeom with point := ⟨(4, 0), ⟨0, 1, 0, 1⟩⟩, round_r := 2 }).rgba =
      Col4.mk 1 0 0 1 ∧
    dot2 (sub2 ((3 : ℝ), (3 : ℝ)) ((3 : ℝ), (3 : ℝ)))
      (sub2 ((3 : ℝ), (3 : ℝ)) ((3 : ℝ), (3 : ℝ))) = 0 := by
  have h4 : length2 (sub2 ((4 : ℝ), (0 : ℝ)) ((0 : ℝ), (0 : ℝ))) = 4 := by
    simp only [length2, sub2]
    rw [show ((4 - 0) * (4 - 0) + (0 - 0) * (0 - 0) : ℝ) = 4 ^ 2 by norm_num,
      Real.sqrt_sq (by norm_num : (0 : ℝ) ≤ 4)]
  refine ⟨?_, ?_, ?_⟩
  · rw [h4]
    norm_num
  · have h4' : length2 ((4 : ℝ), (0 : ℝ)) = 4 := by
      simp only [length2]
      rw [show ((4 * 4 + 0 * 0 : ℝ)) = 4 ^ 2 by norm_num,
        Real.sqrt_sq (by norm_num : (0 : ℝ) ≤ 4)]
    rw [sdSegment]
    simp only [sub2, dot2, mul2, clamp]
    norm_num [h4', mix4_zero]
  · norm_num [dot2, sub2]

/-!  Lemmas for the scan-skip claim C1. -/

/-- The coverage alpha a layer outputs always equals the clamp of its
negated output distance (both branches of sdRenderLayer agree on
this). -/
theorem sdRenderLayer_alpha (L : Layer) (x y : ℝ) :
    (sdRenderLayer L x y).1.c3 = clamp (-(sdRenderLayer L x y).2) 0 1 := by
  rw [sdRenderLayer]
  split_ifs with h
  · simp only [clamp]
    have h1 : -distanceBbox L.bbox x y < 0 := by linarith
    rw [min_eq_right (by linarith), max_eq_left (by linarith)]
  · rfl

/-- A foldl of binary min is bounded by its initial accumulator. -/
theorem foldl_min_le_init (l : List (Col4 × ℝ)) (acc : ℝ) :
    l.foldl (fun a p => min a p.2) acc ≤ acc := by
  induction l generalizing acc with
  | nil => exact le_refl _
  | cons hd tl ih =>
    simp only [List.foldl_cons]
    exact le_trans (ih (min acc hd.2)) (min_le_left _ _)

/-- A foldl of binary min over second components is bounded by every
member's second component. -/
theorem foldl_min_le_mem (l : List (Col4 × ℝ)) (acc : ℝ) (r : Col4 × ℝ)
    (hr : r ∈ l) : l.foldl (fun a p => min a p.2) acc ≤ r.2 := by
  induction l generalizing acc with
  | nil => cases hr
  | cons hd tl ih =>
    rcases List.mem_cons.mp hr with hr | hr
    · subst hr
      simp only [List.foldl_cons]
      exact le_trans (foldl_min_le_init tl _) (min_le_right _ _)
    · simp only [List.foldl_cons]
      exact ih _ hr

/-- Adding alpha-weighted colors with all alphas 0 leaves the
accumulator unchanged. -/
theorem foldl_addmul_zero (l : List (Col4 × ℝ)) (acc : ℝ × ℝ × ℝ)
    (h : ∀ r ∈ l, r.1.c3 = 0) :
    l.foldl
      (fun (acc : ℝ × ℝ × ℝ) r =>
        (acc.1 + r.1.c0 * r.1.c3, acc.2.1 + r.1.c1 * r.1.c3,
          acc.2.2 + r.1.c2 * r.1.c3)) acc = acc := by
  induction l generalizing acc with
  | nil => rfl
  | cons hd tl ih =>
    have hhd : hd.1.c3 = 0 := h hd (List.mem_cons_self hd tl)
    simp only [List.foldl_cons, hhd, mul_zero, add_zero]
    exact ih acc fun r hr => h r (List.mem_cons_of_mem hd hr)

/-- Far pixels are black: whenever the scene distance at a pixel is at
least 1, every layer's coverage is 0 and the composited color is
(0,0,0). -/
theorem sdRenderScene_far_black (s : Scene) (x y : ℝ)
    (h : 1 ≤ (sdRenderScene s x y).2) :
    (sdRenderScene s x y).1 = ((0 : ℝ), (0 : ℝ), (0 : ℝ)) := by
  have halpha : ∀ r ∈ (List.range s.size).map fun i => sdRenderLayer (s.layers i) x y,
      r.1.c3 = 0 := by
    intro r hr
    rcases List.mem_map.mp hr with ⟨i, _, rfl⟩
    have hd2 : 1 ≤ (sdRenderLayer (s.layers i) x y).2 := by
      have hle := foldl_min_le_mem
        ((List.range s.size).map fun i => sdRenderLayer (s.layers i) x y)
        FLT_MAX (sdRenderLayer (s.layers i) x y) hr
      have := h
      rw [sdRenderScene] at this
      exact le_trans this hle
    rw [sdRenderLayer_alpha]
    simp only [clamp]
    rw [min_eq_right (by linarith), max_eq_left (by linarith)]
  rw [sdRenderScene]
  simp only []
  rw [foldl_addmul_zero _ _ halpha]
  simp [clamp]

/-- The row loops of render_canvas and of the spec agree, provided the
carried previous color is black whenever a skip is pending. -/
theorem rowAux_eq_spec (s : Scene) (w y : ℕ) (fuel x next : ℕ)
    (last : ℝ × ℝ × ℝ) (hinv : x < next → last = ((0 : ℝ), 0, 0)) :
    rowAux s w y fuel x next = rowAuxSpec s w y fuel x next last := by
  induction fuel generalizing x next last with
  | zero => rfl
  | succ fuel ih =>
    rw [rowAux, rowAuxSpec]
    split_ifs with hx
    · refine congrArg _ ?_
      refine ih (x + 1) _ _ ?_
      intro hlt
      have h2 : 2 ≤ (⌊clamp (sdRenderScene s (x : ℝ) (y : ℝ)).2 0 (w : ℝ)⌋).toNat := by
        omega
      have h2' : (2 : ℤ) ≤ ⌊clamp (sdRenderScene s (x : ℝ) (y : ℝ)).2 0 (w : ℝ)⌋ := by
        omega
      have h2r : (2 : ℝ) ≤ clamp (sdRenderScene s (x : ℝ) (y : ℝ)).2 0 (w : ℝ) := by
        exact_mod_cast Int.le_floor.mp h2'
      have hd : 1 ≤ (sdRenderScene s (x : ℝ) (y : ℝ)).2 := by
        have : clamp (sdRenderScene s (x : ℝ) (y : ℝ)).2 0 (w : ℝ) ≤
            max 0 (sdRenderScene s (x : ℝ) (y : ℝ)).2 := by
          simp only [clamp]
          exact max_le_max (le_refl 0) (min_le_right _ _)
        have hmax : (2 : ℝ) ≤ max 0 (sdRenderScene s (x : ℝ) (y : ℝ)).2 :=
          le_trans h2r this
        rcases le_or_lt (sdRenderScene s (x : ℝ) (y : ℝ)).2 0 with hneg | hpos
        · rw [max_eq_left hneg] at hmax
          linarith
        · rw [max_eq_right (le_of_lt hpos)] at hmax
          linarith
      rw [sdRenderScene_far_black s x y hd]
    · have hlast : last = ((0 : ℝ), 0, 0) := hinv (by omega)
      rw [hlast]
      exact congrArg _ (ih (x + 1) next ((0 : ℝ), 0, 0) fun _ => rfl)

/-- C1: render_canvas evaluates the scene at a pixel exactly when x has
reached the row's skip cursor and then advances the cursor by
`floor(clamp(sceneDistance, 0, canvasWidth))`; the color it passes for
every skipped pixel equals the color of the most recently evaluated
pixel of that row, unchanged.  Stated as: the emitted pixel stream of
render_canvas coincides with that of the spec §4.6 reference loop, which
reuses the previous evaluated color for skipped pixels. -/
theorem C1_render_canvas_skip_reuses_color (s : Scene) (w h : ℕ) :
    render_canvas s w h = render_canvas_spec s w h := by
  rw [render_canvas, render_canvas_spec]
  refine congrArg _ (funext fun y => ?_)
  exact rowAux_eq_spec s w y w 0 0 _ (by omega)

/-!  Bounding-box soundness (claims C4 and C2). -/

theorem distance2_comm (a b : Vec2) : distance2 a b = distance2 b a := by
  simp only [distance2, length2, sub2]
  ring_nf

theorem abs_fst_le_distance2 (a b : Vec2) : |a.1 - b.1| ≤ distance2 a b := by
  rw [distance2, length2, sub2]
  dsimp only
  rw [show |a.1 - b.1| = Real.sqrt ((a.1 - b.1) * (a.1 - b.1)) from
    (Real.sqrt_mul_self_eq_abs _).symm]
  exact Real.sqrt_le_sqrt (by nlinarith [mul_self_nonneg (a.2 - b.2)])

theorem abs_snd_le_distance2 (a b : Vec2) : |a.2 - b.2| ≤ distance2 a b := by
  rw [distance2, length2, sub2]
  dsimp only
  rw [show |a.2 - b.2| = Real.sqrt ((a.2 - b.2) * (a.2 - b.2)) from
    (Real.sqrt_mul_self_eq_abs _).symm]
  exact Real.sqrt_le_sqrt (by nlinarith [mul_self_nonneg (a.1 - b.1)])

/-- Core inequality behind the lower-bound soundness: if a box surrounds
a point w with margin at least r on every side, then whenever (x,y) is
reported outside the box, the reported value is at most the distance to
w minus r. -/
theorem distanceBbox_le_dist_sub (b : Bbox) (x y : ℝ) (w : Vec2) (r : ℝ)
    (hbl1 : b.bl.1 ≤ w.1 - r) (hbl2 : b.bl.2 ≤ w.2 - r)
    (hur1 : w.1 + r ≤ b.ur.1) (hur2 : w.2 + r ≤ b.ur.2)
    (hpos : 0 < distanceBbox b x y) :
    distanceBbox b x y ≤ distance2 (x, y) w - r := by
  have h1 : w.1 - x ≤ distance2 (x, y) w := by
    have := abs_fst_le_distance2 ((x, y) : Vec2) w
    have h := neg_abs_le (x - w.1)
    simp only at this
    linarith [abs_nonneg (x - w.1)]
  have h1' : x - w.1 ≤ distance2 (x, y) w := by
    have := abs_fst_le_distance2 ((x, y) : Vec2) w
    simp only at this
    linarith [le_abs_self (x - w.1)]
  have h2 : w.2 - y ≤ distance2 (x, y) w := by
    have := abs_snd_le_distance2 ((x, y) : Vec2) w
    simp only at this
    linarith [neg_abs_le (y - w.2)]
  have h2' : y - w.2 ≤ distance2 (x, y) w := by
    have := abs_snd_le_distance2 ((x, y) : Vec2) w
    simp only at this
    linarith [le_abs_self (y - w.2)]
  simp only [distanceBbox] at hpos ⊢
  split_ifs at hpos ⊢ with c1 c2 c3 c4 <;> linarith

theorem clamp01_nonneg (v : ℝ) : 0 ≤ clamp v 0 1 := le_max_left 0 _

theorem clamp01_le_one (v : ℝ) : clamp v 0 1 ≤ 1 := by
  rw [clamp]
  exact max_le (by norm_num) (min_le_left _ _)

/-- Membership in the result of a pairZip round. -/
theorem pairZip_forall {P : Vec2 → Prop} (f : Vec2 → Vec2 → Vec2)
    (hf : ∀ a b, P a → P b → P (f a b)) :
    ∀ (l : List Vec2), (∀ v ∈ l, P v) → ∀ w ∈ pairZip f l, P w := by
  intro l
  induction l with
  | nil => intro _ w hw; cases hw
  | cons a tl ih =>
    intro hl w hw
    cases tl with
    | nil => cases hw
    | cons b rest =>
      have hzw : pairZip f (a :: b :: rest) = f a b :: pairZip f (b :: rest) := rfl
      rw [hzw] at hw
      rcases List.mem_cons.mp hw with hw | hw
      · subst hw
        exact hf a b (hl a (by simp)) (hl b (by simp))
      · exact ih (fun v hv => hl v (List.mem_cons_of_mem a hv)) w hw

/-- A lerp of two values in a rectangle stays in the rectangle for
parameters in [0,1]. -/
theorem lerp2_mem (lo hi a b : Vec2) (t : ℝ) (ht0 : 0 ≤ t) (ht1 : t ≤ 1)
    (ha : lo.1 ≤ a.1 ∧ a.1 ≤ hi.1 ∧ lo.2 ≤ a.2 ∧ a.2 ≤ hi.2)
    (hb : lo.1 ≤ b.1 ∧ b.1 ≤ hi.1 ∧ lo.2 ≤ b.2 ∧ b.2 ≤ hi.2) :
    lo.1 ≤ (lerp2 a b t).1 ∧ (lerp2 a b t).1 ≤ hi.1 ∧
      lo.2 ≤ (lerp2 a b t).2 ∧ (lerp2 a b t).2 ≤ hi.2 := by
  obtain ⟨ha1, ha2, ha3, ha4⟩ := ha
  obtain ⟨hb1, hb2, hb3, hb4⟩ := hb
  simp only [lerp2, mix]
  refine ⟨?_, ?_, ?_, ?_⟩ <;> nlinarith

/-- The De Casteljau rounds keep the evaluation inside any rectangle
containing all control points, for parameters in [0,1]. -/
theorem bezierAux_mem (t : ℝ) (ht0 : 0 ≤ t) (ht1 : t ≤ 1) (lo hi : Vec2) :
    ∀ (n : ℕ) (l : List Vec2), n < l.length →
    (∀ v ∈ l, lo.1 ≤ v.1 ∧ v.1 ≤ hi.1 ∧ lo.2 ≤ v.2 ∧ v.2 ≤ hi.2) →
    lo.1 ≤ (bezierAux t n l).1 ∧ (bezierAux t n l).1 ≤ hi.1 ∧
      lo.2 ≤ (bezierAux t n l).2 ∧ (bezierAux t n l).2 ≤ hi.2 := by
  intro n
  induction n with
  | zero =>
    intro l hlen hl
    cases l with
    | nil => simp at hlen
    | cons a tl => exact hl a (by simp [bezierAux, List.headD])
  | succ n ih =>
    intro l hlen hl
    have hstep : ∀ w ∈ bezierStep t l,
        lo.1 ≤ w.1 ∧ w.1 ≤ hi.1 ∧ lo.2 ≤ w.2 ∧ w.2 ≤ hi.2 := by
      intro w hw
      exact pairZip_forall _ (fun a b pa pb => lerp2_mem lo hi a b t ht0 ht1 pa pb)
        l hl w hw
    have hlen' : n < (bezierStep t l).length := by
      have : (bezierStep t l).length = min l.length (l.length - 1) := by
        simp [bezierStep, pairZip, List.length_zipWith, List.length_tail]
      omega
    rw [bezierAux]
    exact ih (bezierStep t l) hlen' hstep

/-- Bounds of the running min fold used by set_bbox_bezier. -/
theorem foldl_min2_le_init (l : List Vec2) (p0 : Vec2) :
    (l.foldl (fun a v => (min a.1 v.1, min a.2 v.2)) p0).1 ≤ p0.1 ∧
      (l.foldl (fun a v => (min a.1 v.1, min a.2 v.2)) p0).2 ≤ p0.2 := by
  induction l generalizing p0 with
  | nil => exact ⟨le_refl _, le_refl _⟩
  | cons hd tl ih =>
    simp only [List.foldl_cons]
    obtain ⟨h1, h2⟩ := ih ((min p0.1 hd.1, min p0.2 hd.2) : Vec2)
    exact ⟨le_trans h1 (min_le_left _ _), le_trans h2 (min_le_left _ _)⟩

theorem foldl_min2_le_mem (l : List Vec2) (p0 : Vec2) (v : Vec2) (hv : v ∈ l) :
    (l.foldl (fun a v => (min a.1 v.1, min a.2 v.2)) p0).1 ≤ v.1 ∧
      (l.foldl (fun a v => (min a.1 v.1, min a.2 v.2)) p0).2 ≤ v.2 := by
  induction l generalizing p0 with
  | nil => cases hv
  | cons hd tl ih =>
    rcases List.mem_cons.mp hv with hv | hv
    · subst hv
      simp only [List.foldl_cons]
      obtain ⟨h1, h2⟩ := foldl_min2_le_init tl ((min p0.1 v.1, min p0.2 v.2) : Vec2)
      exact ⟨le_trans h1 (min_le_right _ _), le_trans h2 (min_le_right _ _)⟩
    · simp only [List.foldl_cons]
      exact ih _ hv

theorem foldl_max2_ge_init (l : List Vec2) (p0 : Vec2) :
    p0.1 ≤ (l.foldl (fun a v => (max a.1 v.1, max a.2 v.2)) p0).1 ∧
      p0.2 ≤ (l.foldl (fun a v => (max a.1 v.1, max a.2 v.2)) p0).2 := by
  induction l generalizing p0 with
  | nil => exact ⟨le_refl _, le_refl _⟩
  | cons hd tl ih =>
    simp only [List.foldl_cons]
    obtain ⟨h1, h2⟩ := ih ((max p0.1 hd.1, max p0.2 hd.2) : Vec2)
    exact ⟨le_trans (le_max_left _ _) h1, le_trans (le_max_left _ _) h2⟩

theorem foldl_max2_ge_mem (l : List Vec2) (p0 : Vec2) (v : Vec2) (hv : v ∈ l) :
    v.1 ≤ (l.foldl (fun a v => (max a.1 v.1, max a.2 v.2)) p0).1 ∧
      v.2 ≤ (l.foldl (fun a v => (max a.1 v.1, max a.2 v.2)) p0).2 := by
  induction l generalizing p0 with
  | nil => cases hv
  | cons hd tl ih =>
    rcases List.mem_cons.mp hv with hv | hv
    · subst hv
      simp only [List.foldl_cons]
      obtain ⟨h1, h2⟩ := foldl_max2_ge_init tl ((max p0.1 v.1, max p0.2 v.2) : Vec2)
      exact ⟨le_trans (le_max_right _ _) h1, le_trans (le_max_right _ _) h2⟩
    · simp only [List.foldl_cons]
      exact ih _ hv

/-- The LUT scan always returns an index below the LUT size. -/
theorem lutScan_index_lt (q : Vec2) (lut : ℕ → Vec2) :
    (lutScan q lut).2 < BEZIER_LUT_SIZE := by
  rw [lutScan]
  have key : ∀ (l : List ℕ) (acc : ℝ × ℕ),
      acc.2 < BEZIER_LUT_SIZE → (∀ i ∈ l, i < BEZIER_LUT_SIZE) →
      (l.foldl (fun acc i =>
        let dsq := squaredDistance2 (lut i) q
        if dsq < acc.1 then (dsq, i) else acc) acc).2 < BEZIER_LUT_SIZE := by
    intro l
    induction l with
    | nil => intro acc h _; exact h
    | cons hd tl ih =>
      intro acc h hmem
      simp only [List.foldl_cons]
      refine ih _ ?_ fun i hi => hmem i (List.mem_cons_of_mem _ hi)
      dsimp only
      split_ifs
      · exact hmem hd (List.mem_cons_self _ _)
      · exact h
  refine key _ _ (by norm_num [BEZIER_LUT_SIZE]) fun i hi => List.mem_range.mp hi

/-- The Newton loop keeps its parameter in [0,1]. -/
theorem newtonIter_mem (l : List Vec2) (q : Vec2) :
    ∀ (n : ℕ) (t : ℝ), 0 ≤ t → t ≤ 1 →
      0 ≤ newtonIter l q n t ∧ newtonIter l q n t ≤ 1 := by
  intro n
  induction n with
  | zero => intro t h0 h1; exact ⟨h0, h1⟩
  | succ n ih =>
    intro t h0 h1
    rw [newtonIter]
    dsimp only
    split_ifs with hconv hneg hbig
    · exact ⟨h0, h1⟩
    · norm_num
    · norm_num
    · exact ih _ (not_lt.mp hneg) (not_lt.mp hbig)

/-- The Newton-refined parameter of sdApproximateBezier lies in [0,1]. -/
theorem newtonFinal_mem (q : Vec2) (ctrl : List Vec2) (lut : ℕ → Vec2) :
    0 ≤ newtonFinal q ctrl lut ∧ newtonFinal q ctrl lut ≤ 1 := by
  rw [newtonFinal]
  have hlt := lutScan_index_lt q lut
  refine newtonIter_mem ctrl q BEZIER_MAX_ITERATIONS _ ?_ ?_
  · exact div_nonneg (Nat.cast_nonneg _) (by norm_num [BEZIER_LUT_SIZE])
  · rw [div_le_one (by norm_num [BEZIER_LUT_SIZE])]
    have : ((lutScan q lut).2 : ℝ) ≤ (BEZIER_LUT_SIZE : ℝ) - 1 := by
      have : (lutScan q lut).2 ≤ BEZIER_LUT_SIZE - 1 := by omega
      have h30 := this
      norm_num [BEZIER_LUT_SIZE] at h30 ⊢
      exact_mod_cast h30
    linarith

/-- The resolved control list of a nonempty bezier decomposes as its
first point followed by the remaining points, matching the fold of
set_bbox_bezier. -/
theorem resolveCtrl_cons (L : Layer) (bz : BezierRef) (h : 1 ≤ bz.bsize) :
    resolveCtrl L bz = (L.geoms (bz.points 0)).point.v ::
      (List.range (bz.bsize - 1)).map
        (fun i => (L.geoms (bz.points (i + 1))).point.v) := by
  rw [resolveCtrl]
  obtain ⟨m, hm⟩ : ∃ m, bz.bsize = m + 1 := ⟨bz.bsize - 1, by omega⟩
  rw [hm]
  rw [List.range_succ_eq_map]
  simp [List.map_map]

/-- The distance sdSegment computes is the distance from the query to the
clamped projection point on the segment. -/
theorem sdSegment_d_eq_dist (p : Vec2) (ag bg : Geom) :
    (sdSegment p ag bg).d = distance2 p
      (add2 ag.point.v (mul2 (sub2 bg.point.v ag.point.v)
        (clamp (dot2 (sub2 p ag.point.v) (sub2 bg.point.v ag.point.v) /
          dot2 (sub2 bg.point.v ag.point.v) (sub2 bg.point.v ag.point.v)) 0 1))) := by
  rw [sdSegment, distance2]
  dsimp only
  congr 1
  simp only [sub2, add2, mul2]
  congr 1 <;> ring

/-- The clamped segment projection point lies in the endpoint hull. -/
theorem seg_witness_mem (a b : Vec2) (h : ℝ) (h0 : 0 ≤ h) (h1 : h ≤ 1) :
    min a.1 b.1 ≤ (add2 a (mul2 (sub2 b a) h)).1 ∧
      (add2 a (mul2 (sub2 b a) h)).1 ≤ max a.1 b.1 ∧
      min a.2 b.2 ≤ (add2 a (mul2 (sub2 b a) h)).2 ∧
      (add2 a (mul2 (sub2 b a) h)).2 ≤ max a.2 b.2 := by
  simp only [add2, mul2, sub2]
  refine ⟨?_, ?_, ?_, ?_⟩
  · rcases le_total a.1 b.1 with hc | hc
    · rw [min_eq_left hc]; nlinarith
    · rw [min_eq_right hc]; nlinarith
  · rcases le_total a.1 b.1 with hc | hc
    · rw [max_eq_right hc]; nlinarith
    · rw [max_eq_left hc]; nlinarith
  · rcases le_total a.2 b.2 with hc | hc
    · rw [min_eq_left hc]; nlinarith
    · rw [min_eq_right hc]; nlinarith
  · rcases le_total a.2 b.2 with hc | hc
    · rw [max_eq_right hc]; nlinarith
    · rw [max_eq_left hc]; nlinarith

/-- Lower-bound soundness of the per-geom box for the exact rounded
evaluation: outside the box, the box distance never exceeds the geom's
exact rounded distance. -/
theorem geomBox_sound (L : Layer) (g : Geom) (hwf : GeomWF L g) (x y : ℝ)
    (hpos : 0 < distanceBbox g.bbox x y) :
    distanceBbox g.bbox x y ≤ (evalGeomExact L g x y).d := by
  obtain ⟨htype, hbez, hbox⟩ := hwf
  have hmarg : g.bbox.bl.1 ≤ (baseBbox L g).bl.1 - g.round_r ∧
      g.bbox.bl.2 ≤ (baseBbox L g).bl.2 - g.round_r ∧
      (baseBbox L g).ur.1 + g.round_r ≤ g.bbox.ur.1 ∧
      (baseBbox L g).ur.2 + g.round_r ≤ g.bbox.ur.2 := by
    rcases hbox with ⟨heq, hr0⟩ | heq
    · rw [heq, hr0]
      refine ⟨by linarith, by linarith, by linarith, by linarith⟩
    · have hceil : g.round_r ≤ (⌈g.round_r⌉ : ℝ) + 1 := by
        linarith [Int.le_ceil g.round_r]
      rw [heq]
      simp only [inflateBbox]
      refine ⟨by linarith, by linarith, by linarith, by linarith⟩
  obtain ⟨hm1, hm2, hm3, hm4⟩ := hmarg
  rcases htype with h0 | h1 | h2
  · -- Point geom
    have hbase : baseBbox L g = ⟨g.point.v, g.point.v⟩ := by
      rw [baseBbox, if_pos h0]
      rfl
    rw [hbase] at hm1 hm2 hm3 hm4
    have heval : (evalGeomExact L g x y).d = distance2 (x, y) g.point.v - g.round_r := by
      rw [evalGeomExact, if_pos h0]
      rfl
    rw [heval]
    exact distanceBbox_le_dist_sub g.bbox x y g.point.v g.round_r hm1 hm2 hm3 hm4 hpos
  · -- Segment geom
    have h0' : ¬ g.gtype = 0 := by omega
    set av := (L.geoms g.segment.a).point.v with hav
    set bv := (L.geoms g.segment.b).point.v with hbv
    have hbase : baseBbox L g =
        ⟨(min av.1 bv.1, min av.2 bv.2), (max av.1 bv.1, max av.2 bv.2)⟩ := by
      rw [baseBbox, if_neg h0', if_pos h1]
      rfl
    rw [hbase] at hm1 hm2 hm3 hm4
    set hval := clamp (dot2 (sub2 (x, y) av) (sub2 bv av) /
      dot2 (sub2 bv av) (sub2 bv av)) 0 1 with hhval
    set w := add2 av (mul2 (sub2 bv av) hval) with hw
    have heval : (evalGeomExact L g x y).d = distance2 (x, y) w - g.round_r := by
      rw [evalGeomExact, if_neg h0', if_pos h1, opRound]
      dsimp only
      rw [sdSegment_d_eq_dist]
    obtain ⟨hw1, hw2, hw3, hw4⟩ :=
      seg_witness_mem av bv hval (clamp01_nonneg _) (clamp01_le_one _)
    rw [heval]
    refine distanceBbox_le_dist_sub g.bbox x y w g.round_r ?_ ?_ ?_ ?_ hpos
    · dsimp only at hm1
      linarith
    · dsimp only at hm2
      linarith
    · dsimp only at hm3
      linarith
    · dsimp only at hm4
      linarith
  · -- Bezier geom
    have h0' : ¬ g.gtype = 0 := by omega
    have h1' : ¬ g.gtype = 1 := by omega
    have hsz := hbez h2
    set ctrl := resolveCtrl L g.bezier with hctrl
    set p0 := (L.geoms (g.bezier.points 0)).point.v with hp0
    set rest := (List.range (g.bezier.bsize - 1)).map
      (fun i => (L.geoms (g.bezier.points (i + 1))).point.v) with hrest
    have hcons : ctrl = p0 :: rest := resolveCtrl_cons L g.bezier hsz
    set lov := (rest.foldl (fun a v => (min a.1 v.1, min a.2 v.2)) p0 : Vec2) with hlov
    set hiv := (rest.foldl (fun a v => (max a.1 v.1, max a.2 v.2)) p0 : Vec2) with hhiv
    have hbase : baseBbox L g = ⟨lov, hiv⟩ := by
      rw [baseBbox, if_neg h0', if_neg h1', if_pos h2]
      rfl
    rw [hbase] at hm1 hm2 hm3 hm4
    have hmem : ∀ v ∈ ctrl, lov.1 ≤ v.1 ∧ v.1 ≤ hiv.1 ∧ lov.2 ≤ v.2 ∧ v.2 ≤ hiv.2 := by
      intro v hv
      rw [hcons] at hv
      rcases List.mem_cons.mp hv with hv | hv
      · subst hv
        obtain ⟨ha1, ha2⟩ := foldl_min2_le_init rest p0
        obtain ⟨hb1, hb2⟩ := foldl_max2_ge_init rest p0
        exact ⟨ha1, hb1, ha2, hb2⟩
      · obtain ⟨ha1, ha2⟩ := foldl_min2_le_mem rest p0 v hv
        obtain ⟨hb1, hb2⟩ := foldl_max2_ge_mem rest p0 v hv
        exact ⟨ha1, hb1, ha2, hb2⟩
    set tf := newtonFinal (x, y) ctrl g.bezier.lut with htf
    obtain ⟨ht0, ht1⟩ := newtonFinal_mem (x, y) ctrl g.bezier.lut
    have hclen : ctrl.length = g.bezier.bsize := by
      rw [hctrl, resolveCtrl]
      simp
    have hwmem := bezierAux_mem tf ht0 ht1 lov hiv (ctrl.length - 1) ctrl
      (by omega) hmem
    have heval : (evalGeomExact L g x y).d =
        distance2 (bezier tf ctrl) (x, y) - g.round_r := by
      rw [evalGeomExact, if_neg h0', if_neg h1', if_pos h2, opRound]
      rfl
    obtain ⟨hw1, hw2, hw3, hw4⟩ := hwmem
    rw [heval, distance2_comm]
    refine distanceBbox_le_dist_sub g.bbox x y (bezier tf ctrl) g.round_r ?_ ?_ ?_ ?_ hpos
    · rw [bezier] at *
      linarith
    · rw [bezier] at *
      linarith
    · rw [bezier] at *
      linarith
    · rw [bezier] at *
      linarith

/-- C4: for every geom of the three shape kinds (a bezier with at least
one stored control point), whose box is the set_bbox hull of its shape,
inflated by `ceil(round_r)+1` on all sides when the geom was rounded
(round_r = 0 otherwise), and for every query point that distanceBbox
reports strictly outside the box, the reported value is a true lower
bound on the geom's exact rounded distance
`opRound(exactDistance(query, geom), round_r)` as the renderer computes
it (evalGeomExact). -/
theorem C4_bbox_lower_bound_sound (L : Layer) (g : Geom)
    (htype : g.gtype = 0 ∨ g.gtype = 1 ∨ g.gtype = 2)
    (hbez : g.gtype = 2 → 1 ≤ g.bezier.bsize)
    (hbox : g.bbox = baseBbox L g ∧ g.round_r = 0 ∨
      g.bbox = inflateBbox (baseBbox L g) ((⌈g.round_r⌉ : ℝ) + 1))
    (x y : ℝ) (hpos : 0 < distanceBbox g.bbox x y) :
    distanceBbox g.bbox x y ≤ (evalGeomExact L g x y).d :=
  geomBox_sound L g ⟨htype, hbez, hbox⟩ x y hpos

/-- Witness for C4: a point geom at the origin queried from (-2, 0). -/
theorem C4_bbox_lower_bound_sound_witness :
    0 < distanceBbox
        ({ emptyGeom with point := ⟨(0, 0), ⟨1, 0, 1, 1⟩⟩ } : Geom).bbox (-2) 0 ∧
      distanceBbox ({ emptyGeom with point := ⟨(0, 0), ⟨1, 0, 1, 1⟩⟩ } : Geom).bbox (-2) 0 ≤
        (evalGeomExact emptyLayer { emptyGeom with point := ⟨(0, 0), ⟨1, 0, 1, 1⟩⟩ } (-2) 0).d := by
  have hpos : 0 < distanceBbox
      ({ emptyGeom with point := ⟨(0, 0), ⟨1, 0, 1, 1⟩⟩ } : Geom).bbox (-2) 0 := by
    norm_num [distanceBbox, emptyGeom]
  refine ⟨hpos, C4_bbox_lower_bound_sound emptyLayer _ ?_ ?_ ?_ (-2) 0 hpos⟩
  · left
    rfl
  · intro h
    simp [emptyGeom] at h
  · left
    constructor
    · simp [baseBbox, set_bbox_point, emptyGeom]
    · rfl

/-!  Pruning refinement for F_MIN layers (claim C2). -/

/-- With fusion tag 0 the fold operator is sdMin. -/
theorem fuse_zero : fuse 0 = sdMin := by
  funext d gd
  rw [fuse, if_pos rfl]

/-- sdMin returns one of its arguments, so it preserves any predicate
holding of both. -/
theorem foldl_sdMin_pred (P : RichDistance → Prop) :
    ∀ (l : List RichDistance) (acc : RichDistance), P acc → (∀ e ∈ l, P e) →
      P (l.foldl sdMin acc) := by
  intro l
  induction l with
  | nil => intro acc h _; exact h
  | cons hd tl ih =>
    intro acc h hmem
    simp only [List.foldl_cons]
    refine ih _ ?_ fun e he => hmem e (List.mem_cons_of_mem _ he)
    rw [sdMin]
    split_ifs
    · exact h
    · exact hmem hd (List.mem_cons_self _ _)

/-- Substituting entries only at positions where both lists stay above a
bound B leaves an sdMin fold either unchanged or above B on both
sides. -/
theorem foldl_sdMin_rel (B : ℝ) :
    ∀ (l1 l2 : List RichDistance),
      List.Forall₂ (fun e1 e2 => e1 = e2 ∨ (B < e1.d ∧ B < e2.d)) l1 l2 →
      ∀ (acc1 acc2 : RichDistance), acc1 = acc2 ∨ (B < acc1.d ∧ B < acc2.d) →
      l1.foldl sdMin acc1 = l2.foldl sdMin acc2 ∨
        (B < (l1.foldl sdMin acc1).d ∧ B < (l2.foldl sdMin acc2).d) := by
  intro l1 l2 hrel
  induction hrel with
  | nil => intro acc1 acc2 hacc; exact hacc
  | cons hhd htl ih =>
    intro acc1 acc2 hacc
    simp only [List.foldl_cons]
    refine ih _ _ ?_
    rcases hacc with rfl | ⟨ha1, ha2⟩
    · rcases hhd with rfl | ⟨he1, he2⟩
      · left
        rfl
      · simp only [sdMin]
        split_ifs with h1 h2 h2
        · left
          rfl
        · right
          exact ⟨by linarith [not_lt.mp h2], he2⟩
        · right
          exact ⟨he1, by linarith [not_lt.mp h1]⟩
        · right
          exact ⟨he1, he2⟩
    · rcases hhd with rfl | ⟨he1, he2⟩
      · simp only [sdMin]
        split_ifs with h1 h2 h2
        · right
          exact ⟨ha1, ha2⟩
        · right
          exact ⟨ha1, by linarith [not_lt.mp h2]⟩
        · right
          exact ⟨by linarith [not_lt.mp h1], ha2⟩
        · left
          rfl
      · simp only [sdMin]
        split_ifs with h1 h2 h2
        · right
          exact ⟨ha1, ha2⟩
        · right
          exact ⟨ha1, he2⟩
        · right
          exact ⟨he1, ha2⟩
        · right
          exact ⟨he1, he2⟩

/-- For a well-shaped geom, pruning either leaves the contribution
unchanged or keeps both the substituted and the exact contribution above
the pruning threshold. -/
theorem evalGeom_rel (L : Layer) (g : Geom) (hwf : GeomWF L g) (x y : ℝ) :
    evalGeomPruned L g x y = evalGeomExact L g x y ∨
      (SMOOTH_MIN_FACTOR * 5 < (evalGeomPruned L g x y).d ∧
        SMOOTH_MIN_FACTOR * 5 < (evalGeomExact L g x y).d) := by
  rcases hwf.1 with h0 | h1 | h2
  · left
    rw [evalGeomPruned, evalGeomExact, if_pos h0, if_pos h0]
  · have h0' : ¬ g.gtype = 0 := by omega
    rw [evalGeomPruned, evalGeomExact, if_neg h0', if_pos h1, if_neg h0', if_pos h1]
    dsimp only
    split_ifs with hc
    · left
      rfl
    · right
      push_neg at hc
      have hpos : 0 < distanceBbox g.bbox x y := by
        have : (0 : ℝ) < SMOOTH_MIN_FACTOR * 5 := by norm_num [SMOOTH_MIN_FACTOR]
        linarith
      have hsound := geomBox_sound L g hwf x y hpos
      rw [evalGeomExact, if_neg h0', if_pos h1] at hsound
      exact ⟨by linarith, by linarith⟩
  · have h0' : ¬ g.gtype = 0 := by omega
    have h1' : ¬ g.gtype = 1 := by omega
    rw [evalGeomPruned, evalGeomExact, if_neg h0', if_neg h1', if_pos h2,
      if_neg h0', if_neg h1', if_pos h2]
    dsimp only
    split_ifs with hc
    · left
      rfl
    · right
      push_neg at hc
      have hpos : 0 < distanceBbox g.bbox x y := by
        have : (0 : ℝ) < SMOOTH_MIN_FACTOR * 5 := by norm_num [SMOOTH_MIN_FACTOR]
        linarith
      have hsound := geomBox_sound L g hwf x y hpos
      rw [evalGeomExact, if_neg h0', if_neg h1', if_pos h2] at hsound
      exact ⟨by linarith, by linarith⟩

/-- A point outside a box is outside every box contained in it. -/
theorem bbox_outside_mono (b1 b2 : Bbox) (x y : ℝ) (hsub : bboxSub b1 b2)
    (h : 0 < distanceBbox b2 x y) : 0 < distanceBbox b1 x y := by
  obtain ⟨h1, h2, h3, h4⟩ := hsub
  rw [distanceBbox] at h ⊢
  split_ifs at h ⊢ <;> linarith


/-- C2 as amended: for an F_MIN layer whose committed geoms are
well-shaped with sound boxes, bounding-box pruning never changes the
coverage alpha, and whenever the unpruned blended distance is negative
(i.e. the pixel has positive coverage) the whole output — RGB, alpha
and distance — is unchanged.  (The original claim, unconditional
equality of RGB and alpha for both fusion modes, fails: see the
counterexample.) -/
theorem C2_pruning_fmin_refines (L : Layer) (hwf : LayerWF L)
    (hfu : L.fusion = 0) (x y : ℝ) :
    (sdRenderLayer L x y).1.c3 = (sdRenderLayerUnpruned L x y).1.c3 ∧
      ((sdRenderLayerUnpruned L x y).2 < 0 →
        sdRenderLayer L x y = sdRenderLayerUnpruned L x y) := by
  have hrel : List.Forall₂
      (fun e1 e2 => e1 = e2 ∨
        (SMOOTH_MIN_FACTOR * 5 < e1.d ∧ SMOOTH_MIN_FACTOR * 5 < e2.d))
      ((List.range L.size).map fun i => evalGeomPruned L (L.geoms i) x y)
      ((List.range L.size).map fun i => evalGeomExact L (L.geoms i) x y) := by
    rw [List.forall₂_map_left_iff, List.forall₂_map_right_iff, List.forall₂_same]
    intro i hi
    exact evalGeom_rel L (L.geoms i) (hwf i (List.mem_range.mp hi)).1 x y
  have hfold :
      layerFold L.fusion ((List.range L.size).map fun i => evalGeomPruned L (L.geoms i) x y) =
        layerFold L.fusion ((List.range L.size).map fun i => evalGeomExact L (L.geoms i) x y) ∨
      (SMOOTH_MIN_FACTOR * 5 <
          (layerFold L.fusion
            ((List.range L.size).map fun i => evalGeomPruned L (L.geoms i) x y)).d ∧
        SMOOTH_MIN_FACTOR * 5 <
          (layerFold L.fusion
            ((List.range L.size).map fun i => evalGeomExact L (L.geoms i) x y)).d) := by
    rw [hfu]
    simp only [layerFold, fuse_zero]
    exact foldl_sdMin_rel (SMOOTH_MIN_FACTOR * 5) _ _ hrel DEFAULT_RD DEFAULT_RD
      (Or.inl rfl)
  rw [sdRenderLayer, sdRenderLayerUnpruned]
  split_ifs with hskip
  · have hupos : 0 < (layerFold L.fusion
        ((List.range L.size).map fun i => evalGeomExact L (L.geoms i) x y)).d := by
      rw [hfu]
      simp only [layerFold, fuse_zero]
      refine foldl_sdMin_pred (fun r => 0 < r.d) _ DEFAULT_RD ?_ ?_
      · rw [DEFAULT_RD]
        norm_num [FLT_MAX]
      · intro e he
        rcases List.mem_map.mp he with ⟨i, hi, rfl⟩
        have hg := hwf i (List.mem_range.mp hi)
        have houtg : 0 < distanceBbox (L.geoms i).bbox x y :=
          bbox_outside_mono _ _ x y hg.2 hskip
        exact lt_of_lt_of_le houtg (geomBox_sound L _ hg.1 x y houtg)
    constructor
    · dsimp only
      rw [clamp, min_eq_right (by linarith), max_eq_left (by linarith)]
    · intro hdu
      dsimp only at hdu
      linarith
  · rcases hfold with heq | ⟨hp, hu⟩
    · rw [heq]
      exact ⟨rfl, fun _ => rfl⟩
    · have hB : (0 : ℝ) < SMOOTH_MIN_FACTOR * 5 := by norm_num [SMOOTH_MIN_FACTOR]
      constructor
      · dsimp only
        rw [clamp, clamp, min_eq_right (by linarith), max_eq_left (by linarith),
          min_eq_right (by linarith), max_eq_left (by linarith)]
      · intro hdu
        dsimp only at hdu
        linarith

/-- Witness for C2 (amended) at a concrete F_MIN layer. -/
theorem C2_pruning_fmin_refines_witness :
    (sdRenderLayer exLayerMin 20 0).1.c3 = (sdRenderLayerUnpruned exLayerMin 20 0).1.c3 ∧
      ((sdRenderLayerUnpruned exLayerMin 20 0).2 < 0 →
        sdRenderLayer exLayerMin 20 0 = sdRenderLayerUnpruned exLayerMin 20 0) := by
  refine C2_pruning_fmin_refines exLayerMin ?_ rfl 20 0
  intro i hi
  constructor
  · refine ⟨Or.inl rfl, ?_, Or.inl ⟨?_, rfl⟩⟩
    · intro h
      simp [exLayerMin, emptyGeom] at h
    · simp [exLayerMin, baseBbox, set_bbox_point, emptyGeom]
  · simp [bboxSub, exLayerMin, emptyGeom]

/-- With fusion tag 1 the fold operator is sdSmoothMin. -/
theorem fuse_one : fuse 1 = sdSmoothMin := by
  funext d gd
  rw [fuse, if_neg (by norm_num), if_pos rfl]

/-- Two RichDistance values at least `6k` apart combine by hard selection:
the smoothing weight vanishes. -/
theorem sdSmoothMin_far (a b : RichDistance)
    (h : 6 * SMOOTH_MIN_FACTOR ≤ |a.d - b.d|) :
    sdSmoothMin a b = if a.d < b.d then ⟨a.d, a.rgba⟩ else ⟨b.d, b.rgba⟩ := by
  have hk : (0 : ℝ) < 6 * SMOOTH_MIN_FACTOR := by norm_num [SMOOTH_MIN_FACTOR]
  have hge : (1 : ℝ) ≤ |a.d - b.d| / (6 * SMOOTH_MIN_FACTOR) := by
    rw [le_div_iff₀ hk]
    linarith
  rw [sdSmoothMin, sminq, min_eq_right hge]
  split_ifs with hab
  · norm_num [mix4_zero]
  · norm_num [mix4_one]

/-- Evaluate length2 on a closed pair via a square root identity. -/
theorem length2_eval (a b c : ℝ) (h : a * a + b * b = c ^ 2) (hc : 0 ≤ c) :
    length2 (a, b) = c := by
  rw [length2]
  dsimp only
  rw [h, Real.sqrt_sq hc]

/-- C2 counterexample: bounding-box pruning changes the output pixel.
For the SMIN example layer at the origin, the pruned segment entry (box
bound 8) still blends with the accumulator while its exact rounded
distance 9 would not, so the coverage alpha differs (1945/3888 vs 1/2);
for the F_MIN example layer at the origin, the layer-box skip emits
black RGB while the unpruned fold returns the point's red channel 1 with
the same zero coverage.  Both refute the claim that pruning never
changes the returned RGB and coverage alpha. -/
theorem C2_pruning_changes_output :
    (sdRenderLayer exLayerSmin 0 0).1.c3 ≠ (sdRenderLayerUnpruned exLayerSmin 0 0).1.c3 ∧
      (sdRenderLayer exLayerMin 0 0).1.c0 ≠ (sdRenderLayerUnpruned exLayerMin 0 0).1.c0 := by
  have l00 : length2 ((0 : ℝ), (0 : ℝ)) = 0 :=
    length2_eval 0 0 0 (by norm_num) le_rfl
  have l12 : length2 ((-12 : ℝ), (0 : ℝ)) = 12 :=
    length2_eval (-12) 0 12 (by norm_num) (by norm_num)
  have l37 : length2 ((-12 : ℝ), (-35 : ℝ)) = 37 :=
    length2_eval (-12) (-35) 37 (by norm_num) (by norm_num)
  have l35 : length2 ((0 : ℝ), (35 : ℝ)) = 35 :=
    length2_eval 0 35 35 (by norm_num) (by norm_num)
  have l20 : length2 ((-20 : ℝ), (0 : ℝ)) = 20 :=
    length2_eval (-20) 0 20 (by norm_num) (by norm_num)
  have he0 : evalGeomPruned exLayerSmin exGeomPoint 0 0 =
      ⟨-(1 / 2 : ℝ), ⟨1, 0, 0, 1⟩⟩ := by
    rw [evalGeomPruned, if_pos (show exGeomPoint.gtype = 0 from rfl), opRound, sdPoint]
    rw [show sub2 ((0 : ℝ), (0 : ℝ)) exGeomPoint.point.v = ((0 : ℝ), (0 : ℝ)) by
      norm_num [sub2, exGeomPoint, emptyGeom]]
    rw [l00]
    norm_num [exGeomPoint, emptyGeom]
  have he1 : evalGeomPruned exLayerSmin exGeomEndA 0 0 = ⟨12, ⟨0, 1, 0, 1⟩⟩ := by
    rw [evalGeomPruned, if_pos (show exGeomEndA.gtype = 0 from rfl), opRound, sdPoint]
    rw [show sub2 ((0 : ℝ), (0 : ℝ)) exGeomEndA.point.v = ((-12 : ℝ), (0 : ℝ)) by
      norm_num [sub2, exGeomEndA, emptyGeom]]
    rw [l12]
    norm_num [exGeomEndA, emptyGeom]
  have he2 : evalGeomPruned exLayerSmin exGeomEndB 0 0 = ⟨37, ⟨0, 0, 1, 1⟩⟩ := by
    rw [evalGeomPruned, if_pos (show exGeomEndB.gtype = 0 from rfl), opRound, sdPoint]
    rw [show sub2 ((0 : ℝ), (0 : ℝ)) exGeomEndB.point.v = ((-12 : ℝ), (-35 : ℝ)) by
      norm_num [sub2, exGeomEndB, emptyGeom]]
    rw [l37]
    norm_num [exGeomEndB, emptyGeom]
  have he3p : evalGeomPruned exLayerSmin exGeomSeg 0 0 = ⟨8, ⟨0, 0, 0, 0⟩⟩ := by
    rw [evalGeomPruned, if_neg (show ¬ exGeomSeg.gtype = 0 by norm_num [exGeomSeg, emptyGeom]),
      if_pos (show exGeomSeg.gtype = 1 from rfl)]
    rw [show distanceBbox exGeomSeg.bbox 0 0 = 8 by
      norm_num [distanceBbox, exGeomSeg, emptyGeom]]
    rw [if_neg (by norm_num [SMOOTH_MIN_FACTOR])]
    rfl
  have hseg : sdSegment ((0 : ℝ), (0 : ℝ)) exGeomEndA exGeomEndB = ⟨12, ⟨0, 1, 0, 1⟩⟩ := by
    rw [sdSegment]
    rw [show sub2 ((0 : ℝ), (0 : ℝ)) exGeomEndA.point.v = ((-12 : ℝ), (0 : ℝ)) by
      norm_num [sub2, exGeomEndA, emptyGeom]]
    rw [show sub2 exGeomEndB.point.v exGeomEndA.point.v = ((0 : ℝ), (35 : ℝ)) by
      norm_num [sub2, exGeomEndA, exGeomEndB, emptyGeom]]
    rw [l35]
    rw [show dot2 ((-12 : ℝ), (0 : ℝ)) ((0 : ℝ), (35 : ℝ)) = 0 by norm_num [dot2]]
    rw [show dot2 ((0 : ℝ), (35 : ℝ)) ((0 : ℝ), (35 : ℝ)) = 1225 by norm_num [dot2]]
    rw [show clamp (0 / 1225) 0 1 = 0 by norm_num [clamp]]
    rw [show mul2 ((0 : ℝ), (35 : ℝ)) 0 = ((0 : ℝ), (0 : ℝ)) by norm_num [mul2]]
    rw [show sub2 ((-12 : ℝ), (0 : ℝ)) ((0 : ℝ), (0 : ℝ)) = ((-12 : ℝ), (0 : ℝ)) by
      norm_num [sub2]]
    rw [l12]
    have har : exGeomEndA.round_r / 35 = 0 := by norm_num [exGeomEndA, emptyGeom]
    have hbr : exGeomEndB.round_r / 35 = 0 := by norm_num [exGeomEndB, emptyGeom]
    rw [har, hbr]
    rw [show clamp (0 - 0) 0 (1 - (0 + 0)) / (1 - (0 + 0)) = 0 by norm_num [clamp]]
    rw [show mix4 exGeomEndA.point.rgba exGeomEndB.point.rgba 0 =
      exGeomEndA.point.rgba from mix4_zero _ _]
    rfl
  have he3u : evalGeomExact exLayerSmin exGeomSeg 0 0 = ⟨9, ⟨0, 1, 0, 1⟩⟩ := by
    rw [evalGeomExact, if_neg (show ¬ exGeomSeg.gtype = 0 by norm_num [exGeomSeg, emptyGeom]),
      if_pos (show exGeomSeg.gtype = 1 from rfl)]
    rw [show exLayerSmin.geoms exGeomSeg.segment.a = exGeomEndA from rfl]
    rw [show exLayerSmin.geoms exGeomSeg.segment.b = exGeomEndB from rfl]
    rw [hseg, opRound]
    norm_num [exGeomSeg, emptyGeom]
  have hs2 : sdSmoothMin ⟨-(1 / 2 : ℝ), ⟨1, 0, 0, 1⟩⟩ ⟨12, ⟨0, 1, 0, 1⟩⟩ =
      ⟨-(1 / 2 : ℝ), ⟨1, 0, 0, 1⟩⟩ := by
    rw [sdSmoothMin_far]
    · rw [if_pos (by norm_num)]
    · rw [show |(⟨-(1 / 2 : ℝ), ⟨1, 0, 0, 1⟩⟩ : RichDistance).d -
        (⟨12, ⟨0, 1, 0, 1⟩⟩ : RichDistance).d| = 25 / 2 by
          rw [abs_of_nonpos (by norm_num)]
          norm_num]
      norm_num [SMOOTH_MIN_FACTOR]
  have hs3 : sdSmoothMin ⟨-(1 / 2 : ℝ), ⟨1, 0, 0, 1⟩⟩ ⟨37, ⟨0, 0, 1, 1⟩⟩ =
      ⟨-(1 / 2 : ℝ), ⟨1, 0, 0, 1⟩⟩ := by
    rw [sdSmoothMin_far]
    · rw [if_pos (by norm_num)]
    · rw [show |(⟨-(1 / 2 : ℝ), ⟨1, 0, 0, 1⟩⟩ : RichDistance).d -
        (⟨37, ⟨0, 0, 1, 1⟩⟩ : RichDistance).d| = 75 / 2 by
          rw [abs_of_nonpos (by norm_num)]
          norm_num]
      norm_num [SMOOTH_MIN_FACTOR]
  have hs4u : sdSmoothMin ⟨-(1 / 2 : ℝ), ⟨1, 0, 0, 1⟩⟩ ⟨9, ⟨0, 1, 0, 1⟩⟩ =
      ⟨-(1 / 2 : ℝ), ⟨1, 0, 0, 1⟩⟩ := by
    rw [sdSmoothMin_far]
    · rw [if_pos (by norm_num)]
    · rw [show |(⟨-(1 / 2 : ℝ), ⟨1, 0, 0, 1⟩⟩ : RichDistance).d -
        (⟨9, ⟨0, 1, 0, 1⟩⟩ : RichDistance).d| = 19 / 2 by
          rw [abs_of_nonpos (by norm_num)]
          norm_num]
      norm_num [SMOOTH_MIN_FACTOR]
  have hs4p : sdSmoothMin ⟨-(1 / 2 : ℝ), ⟨1, 0, 0, 1⟩⟩ ⟨8, ⟨0, 0, 0, 0⟩⟩ =
      ⟨-(1 / 2 : ℝ) - 1 / 3888, ⟨11663 / 11664, 0, 0, 11663 / 11664⟩⟩ := by
    rw [sdSmoothMin, sminq]
    rw [show |(⟨-(1 / 2 : ℝ), ⟨1, 0, 0, 1⟩⟩ : RichDistance).d -
      (⟨8, ⟨0, 0, 0, 0⟩⟩ : RichDistance).d| = 17 / 2 by
        rw [abs_of_nonpos (by norm_num)]
        norm_num]
    rw [show (17 / 2 : ℝ) / (6 * SMOOTH_MIN_FACTOR) = 17 / 18 by
      norm_num [SMOOTH_MIN_FACTOR]]
    rw [min_eq_left (by norm_num)]
    rw [if_pos (by norm_num)]
    refine RichDistance.ext ?_ ?_
    · show -(1 / 2 : ℝ) - (1 - 17 / 18) * (1 - 17 / 18) * (1 - 17 / 18) * SMOOTH_MIN_FACTOR =
        -(1 / 2 : ℝ) - 1 / 3888
      norm_num [SMOOTH_MIN_FACTOR]
    · show mix4 ⟨1, 0, 0, 1⟩ ⟨0, 0, 0, 0⟩ ((1 - 17 / 18) * (1 - 17 / 18) * (1 - 17 / 18) * 0.5) =
        Col4.mk (11663 / 11664) 0 0 (11663 / 11664)
      ext <;> norm_num [mix4, mix]
  have hmapP : (List.range exLayerSmin.size).map
      (fun i => evalGeomPruned exLayerSmin (exLayerSmin.geoms i) 0 0) =
      [⟨-(1 / 2 : ℝ), ⟨1, 0, 0, 1⟩⟩, ⟨12, ⟨0, 1, 0, 1⟩⟩, ⟨37, ⟨0, 0, 1, 1⟩⟩,
        ⟨8, ⟨0, 0, 0, 0⟩⟩] := by
    rw [show exLayerSmin.size = 4 from rfl, show List.range 4 = [0, 1, 2, 3] from rfl]
    simp only [List.map_cons, List.map_nil]
    rw [show exLayerSmin.geoms 0 = exGeomPoint from rfl,
      show exLayerSmin.geoms 1 = exGeomEndA from rfl,
      show exLayerSmin.geoms 2 = exGeomEndB from rfl,
      show exLayerSmin.geoms 3 = exGeomSeg from rfl, he0, he1, he2, he3p]
  have hmapU : (List.range exLayerSmin.size).map
      (fun i => evalGeomExact exLayerSmin (exLayerSmin.geoms i) 0 0) =
      [⟨-(1 / 2 : ℝ), ⟨1, 0, 0, 1⟩⟩, ⟨12, ⟨0, 1, 0, 1⟩⟩, ⟨37, ⟨0, 0, 1, 1⟩⟩,
        ⟨9, ⟨0, 1, 0, 1⟩⟩] := by
    have he0u : evalGeomExact exLayerSmin exGeomPoint 0 0 = ⟨-(1 / 2 : ℝ), ⟨1, 0, 0, 1⟩⟩ := by
      rw [evalGeomExact, if_pos (show exGeomPoint.gtype = 0 from rfl), opRound, sdPoint]
      rw [show sub2 ((0 : ℝ), (0 : ℝ)) exGeomPoint.point.v = ((0 : ℝ), (0 : ℝ)) by
        norm_num [sub2, exGeomPoint, emptyGeom]]
      rw [l00]
      norm_num [exGeomPoint, emptyGeom]
    have he1u : evalGeomExact exLayerSmin exGeomEndA 0 0 = ⟨12, ⟨0, 1, 0, 1⟩⟩ := by
      rw [evalGeomExact, if_pos (show exGeomEndA.gtype = 0 from rfl), opRound, sdPoint]
      rw [show sub2 ((0 : ℝ), (0 : ℝ)) exGeomEndA.point.v = ((-12 : ℝ), (0 : ℝ)) by
        norm_num [sub2, exGeomEndA, emptyGeom]]
      rw [l12]
      norm_num [exGeomEndA, emptyGeom]
    have he2u : evalGeomExact exLayerSmin exGeomEndB 0 0 = ⟨37, ⟨0, 0, 1, 1⟩⟩ := by
      rw [evalGeomExact, if_pos (show exGeomEndB.gtype = 0 from rfl), opRound, sdPoint]
      rw [show sub2 ((0 : ℝ), (0 : ℝ)) exGeomEndB.point.v = ((-12 : ℝ), (-35 : ℝ)) by
        norm_num [sub2, exGeomEndB, emptyGeom]]
      rw [l37]
      norm_num [exGeomEndB, emptyGeom]
    rw [show exLayerSmin.size = 4 from rfl, show List.range 4 = [0, 1, 2, 3] from rfl]
    simp only [List.map_cons, List.map_nil]
    rw [show exLayerSmin.geoms 0 = exGeomPoint from rfl,
      show exLayerSmin.geoms 1 = exGeomEndA from rfl,
      show exLayerSmin.geoms 2 = exGeomEndB from rfl,
      show exLayerSmin.geoms 3 = exGeomSeg from rfl, he0u, he1u, he2u, he3u]
  have hsdefault : sdSmoothMin DEFAULT_RD ⟨-(1 / 2 : ℝ), ⟨1, 0, 0, 1⟩⟩ =
      ⟨-(1 / 2 : ℝ), ⟨1, 0, 0, 1⟩⟩ :=
    sdSmoothMin_default _ (by norm_num [FLT_MAX, SMOOTH_MIN_FACTOR])
  have hfoldP : layerFold exLayerSmin.fusion
      ((List.range exLayerSmin.size).map
        (fun i => evalGeomPruned exLayerSmin (exLayerSmin.geoms i) 0 0)) =
      ⟨-(1 / 2 : ℝ) - 1 / 3888, ⟨11663 / 11664, 0, 0, 11663 / 11664⟩⟩ := by
    rw [hmapP, layerFold, show exLayerSmin.fusion = 1 from rfl, fuse_one]
    simp only [List.foldl_cons, List.foldl_nil]
    rw [hsdefault, hs2, hs3, hs4p]
  have hfoldU : layerFold exLayerSmin.fusion
      ((List.range exLayerSmin.size).map
        (fun i => evalGeomExact exLayerSmin (exLayerSmin.geoms i) 0 0)) =
      ⟨-(1 / 2 : ℝ), ⟨1, 0, 0, 1⟩⟩ := by
    rw [hmapU, layerFold, show exLayerSmin.fusion = 1 from rfl, fuse_one]
    simp only [List.foldl_cons, List.foldl_nil]
    rw [hsdefault, hs2, hs3, hs4u]
  constructor
  · rw [sdRenderLayer, sdRenderLayerUnpruned]
    rw [if_neg (show ¬ (0 : ℝ) < distanceBbox exLayerSmin.bbox 0 0 by
      norm_num [distanceBbox, exLayerSmin])]
    dsimp only
    rw [hfoldP, hfoldU]
    dsimp only
    rw [show clamp (-(-(1 / 2 : ℝ) - 1 / 3888)) 0 1 = 1945 / 3888 by
      rw [clamp, min_eq_right (by norm_num), max_eq_right (by norm_num)]
      norm_num]
    rw [show clamp (-(-(1 / 2 : ℝ))) 0 1 = 1 / 2 by
      rw [clamp, min_eq_right (by norm_num), max_eq_right (by norm_num)]
      norm_num]
    norm_num
  · rw [sdRenderLayer, sdRenderLayerUnpruned]
    rw [if_pos (show (0 : ℝ) < distanceBbox exLayerMin.bbox 0 0 by
      norm_num [distanceBbox, exLayerMin])]
    have hmapM : (List.range exLayerMin.size).map
        (fun i => evalGeomExact exLayerMin (exLayerMin.geoms i) 0 0) =
        [⟨20, ⟨1, 0, 0, 1⟩⟩] := by
      rw [show exLayerMin.size = 1 from rfl, show List.range 1 = [0] from rfl]
      simp only [List.map_cons, List.map_nil]
      rw [evalGeomExact, if_pos (show (exLayerMin.geoms 0).gtype = 0 from rfl), opRound,
        sdPoint]
      rw [show sub2 ((0 : ℝ), (0 : ℝ)) (exLayerMin.geoms 0).point.v = ((-20 : ℝ), (0 : ℝ)) by
        norm_num [sub2, exLayerMin, emptyGeom]]
      rw [l20]
      norm_num [exLayerMin, emptyGeom]
    rw [hmapM, layerFold, show exLayerMin.fusion = 0 from rfl, fuse_zero]
    simp only [List.foldl_cons, List.foldl_nil]
    rw [sdMin_default _ (by norm_num [FLT_MAX])]
    norm_num

/-!  Claim C5: the Newton refinement of sdApproximateBezier. -/

/-- Closed form of the example curve: x(t) = 20t - 19t^2 on the x
axis. -/
theorem exBez_eval (t : ℝ) : bezier t exBezCtrl = (20 * t - 19 * t ^ 2, 0) := by
  show bezierAux t ([((0 : ℝ), (0 : ℝ)), (10, 0), (1, 0)].length - 1) _ = _
  simp only [List.length_cons, List.length_nil, exBezCtrl]
  rw [show (2 + 1 - 1 : ℕ) = 2 from rfl]
  simp only [bezierAux, bezierStep, pairZip, List.tail_cons, List.zipWith_cons_cons,
    List.zipWith_nil_right, lerp2, mix, List.headD]
  simp only [Prod.mk.injEq]
  constructor
  · ring
  · ring

/-- Closed form of the example curve's code derivative: 30 - 57t (the
hodograph scaled by the control-point count 3). -/
theorem exBez_deriv (t : ℝ) : bezier_derivative t exBezCtrl = (30 - 57 * t, 0) := by
  rw [bezier_derivative]
  simp only [scaledDiffs, pairZip, exBezCtrl, List.tail_cons, List.zipWith_cons_cons,
    List.zipWith_nil_right, sub2, mul2, List.length_cons, List.length_nil]
  simp only [bezierAux, bezierStep, pairZip, List.tail_cons, List.zipWith_cons_cons,
    List.zipWith_nil_right, lerp2, mix, List.headD, List.length_cons, List.length_nil]
  norm_num
  ring

/-- The stored LUT entries of the example curve. -/
theorem exBezLut_eval (i : ℕ) (h : i < 31) :
    exBezLut i = ((600 * (i : ℝ) - 19 * (i : ℝ) ^ 2) / 900, 0) := by
  rw [exBezLut, if_pos (show i < BEZIER_LUT_SIZE from h), exBez_eval]
  rw [show ((BEZIER_LUT_SIZE : ℝ) - 1) = 30 by norm_num [BEZIER_LUT_SIZE]]
  simp only [Prod.mk.injEq]
  constructor
  · field_simp
    ring
  · trivial

/-- The LUT scan for query (9,0) lands on index 16. -/
theorem exBez_scan : (lutScan ((9 : ℝ), (0 : ℝ)) exBezLut).2 = 16 := by
  rw [lutScan, show List.range BEZIER_LUT_SIZE =
    [0, 1, 2, 3, 4, 5, 6, 7, 8, 9, 10, 11, 12, 13, 14, 15, 16, 17, 18, 19, 20, 21,
      22, 23, 24, 25, 26, 27, 28, 29, 30] from rfl]
  simp only [List.foldl_cons, List.foldl_nil]
  norm_num [exBezLut_eval, squaredDistance2, dot2, sub2, FLT_MAX]

/-- On the example curve queried from (9,0), the first Newton step
overshoots below 0 and the loop clamps the parameter to 0. -/
theorem exBez_newton : newtonFinal ((9 : ℝ), (0 : ℝ)) exBezCtrl exBezLut = 0 := by
  rw [newtonFinal, exBez_scan]
  rw [show ((16 : ℕ) : ℝ) / ((BEZIER_LUT_SIZE : ℝ) - 1) = 8 / 15 by
    norm_num [BEZIER_LUT_SIZE]]
  rw [show BEZIER_MAX_ITERATIONS = 10 from rfl]
  rw [newtonIter, exBez_eval, exBez_deriv]
  norm_num [sub2, dot2, BEZIER_EPSILON]
  rw [abs_of_pos (by norm_num : (0 : ℝ) < 1682 / 1125)]
  norm_num

/-- C5 counterexample: for the example Bezier (3 control points, within
the claim's 2..11 range) and the query point (9,0), the Newton-refined
distance 9 exceeds the distance 3364/900 to the LUT-seeded curve point:
the refinement increased the distance. -/
theorem C5_newton_can_increase_distance :
    2 ≤ exBezCtrl.length ∧ exBezCtrl.length ≤ 11 ∧
      distance2 ((9 : ℝ), (0 : ℝ))
        (bezier (((lutScan ((9 : ℝ), (0 : ℝ)) exBezLut).2 : ℝ) /
          ((BEZIER_LUT_SIZE : ℝ) - 1)) exBezCtrl) <
        (sdApproximateBezier ((9 : ℝ), (0 : ℝ)) exBezCtrl exBezLut ⟨1, 0, 0, 1⟩).d := by
  refine ⟨by norm_num [exBezCtrl], by norm_num [exBezCtrl], ?_⟩
  rw [sdApproximateBezier]
  rw [exBez_newton, exBez_scan]
  rw [show ((16 : ℕ) : ℝ) / ((BEZIER_LUT_SIZE : ℝ) - 1) = 8 / 15 by
    norm_num [BEZIER_LUT_SIZE]]
  rw [exBez_eval, exBez_eval]
  rw [show (20 * (8 / 15 : ℝ) - 19 * (8 / 15 : ℝ) ^ 2, (0 : ℝ)) =
    ((4736 / 900 : ℝ), (0 : ℝ)) by norm_num]
  rw [show (20 * (0 : ℝ) - 19 * (0 : ℝ) ^ 2, (0 : ℝ)) = ((0 : ℝ), (0 : ℝ)) by norm_num]
  rw [distance2, distance2]
  rw [show sub2 ((9 : ℝ), (0 : ℝ)) ((4736 / 900 : ℝ), (0 : ℝ)) =
    ((3364 / 900 : ℝ), (0 : ℝ)) by norm_num [sub2]]
  rw [show sub2 ((0 : ℝ), (0 : ℝ)) ((9 : ℝ), (0 : ℝ)) = ((-9 : ℝ), (0 : ℝ)) by
    norm_num [sub2]]
  rw [length2_eval (3364 / 900) 0 (3364 / 900) (by norm_num) (by norm_num)]
  rw [length2_eval (-9) 0 9 (by norm_num) (by norm_num)]
  norm_num

/-- C5 as amended: the Newton refinement keeps the parameter inside
[0,1] (steps that leave the domain are clamped to the boundary), and the
distance sdApproximateBezier returns is the true Euclidean distance from
the refined on-curve point B(t_final) to the query; it is not in general
bounded by the distance to the LUT-seeded point, which the counterexample
shows can be exceeded when a Newton step clamps. -/
theorem C5_newton_refined_point_on_curve (q : Vec2) (ctrl : List Vec2)
    (lut : ℕ → Vec2) (col : Col4) :
    0 ≤ newtonFinal q ctrl lut ∧ newtonFinal q ctrl lut ≤ 1 ∧
      (sdApproximateBezier q ctrl lut col).d =
        distance2 (bezier (newtonFinal q ctrl lut) ctrl) q :=
  ⟨(newtonFinal_mem q ctrl lut).1, (newtonFinal_mem q ctrl lut).2, rfl⟩

/-!  Claim C6: the mathematical derivative of the De Casteljau curve.
The development follows the classical recursion
`B_l(t) = lerp(B_init(t), B_tail(t), t)` proved from the iterative
reduction rounds, plus linearity of the evaluation in the control
points. -/

theorem pairZip_length (f : Vec2 → Vec2 → Vec2) (l : List Vec2) :
    (pairZip f l).length = l.length - 1 := by
  rw [pairZip, List.length_zipWith, List.length_tail]
  omega

theorem pairZip_tail (f : Vec2 → Vec2 → Vec2) (l : List Vec2) :
    (pairZip f l).tail = pairZip f l.tail := by
  cases l with
  | nil => rfl
  | cons a tl =>
    cases tl with
    | nil => rfl
    | cons b rest => rfl

theorem pairZip_dropLast (f : Vec2 → Vec2 → Vec2) (l : List Vec2) :
    (pairZip f l).dropLast = pairZip f l.dropLast := by
  induction l with
  | nil => rfl
  | cons a tl ih =>
    cases tl with
    | nil => rfl
    | cons b rest =>
      cases rest with
      | nil => rfl
      | cons c rs =>
        have hz : pairZip f (a :: b :: c :: rs) = f a b :: pairZip f (b :: c :: rs) := rfl
        have hz2 : (a :: b :: c :: rs).dropLast = a :: (b :: c :: rs).dropLast := rfl
        rw [hz, hz2]
        have hpz : pairZip f (a :: (b :: c :: rs).dropLast) =
            f a b :: pairZip f ((b :: c :: rs).dropLast) := by
          cases rs with
          | nil => rfl
          | cons d ds => rfl
        rw [hpz]
        have hlen : (pairZip f (b :: c :: rs)).length = rs.length + 1 := by
          rw [pairZip_length]
          simp
        rw [List.dropLast_cons_of_ne_nil (by
          intro hnil
          have := congrArg List.length hnil
          rw [hlen] at this
          simp at this)]
        rw [ih]

theorem bezier_pair (t : ℝ) (a b : Vec2) : bezier t [a, b] = lerp2 a b t := rfl

theorem bezier_single (t : ℝ) (a : Vec2) : bezier t [a] = a := rfl

/-- Unfold one reduction round of the full evaluation. -/
theorem bezier_cons_step (t : ℝ) (a b : Vec2) (rest : List Vec2) :
    bezier t (a :: b :: rest) = bezier t (bezierStep t (a :: b :: rest)) := by
  rw [bezier, bezier]
  have h1 : (a :: b :: rest).length - 1 = rest.length + 1 := by simp
  have h2 : (bezierStep t (a :: b :: rest)).length - 1 = rest.length := by
    rw [bezierStep, pairZip_length]
    simp
  rw [h1, h2, bezierAux]

/-- The classical De Casteljau recursion, recovered from the iterative
rounds: the evaluation is the lerp of the evaluations on the first and
last n-1 control points. -/
theorem bezier_split (t : ℝ) :
    ∀ (n : ℕ) (l : List Vec2), l.length = n → 2 ≤ n →
      bezier t l = lerp2 (bezier t l.dropLast) (bezier t l.tail) t := by
  intro n
  induction n using Nat.strong_induction_on with
  | _ n ih =>
    intro l hlen h2
    match l, hlen with
    | [], hlen => simp at hlen; omega
    | [a], hlen => simp at hlen; omega
    | [a, b], _ => rw [bezier_pair]; rfl
    | (a :: b :: c :: rest), hlen =>
      have hn : n = rest.length + 3 := by
        simp at hlen
        omega
      rw [bezier_cons_step]
      have hlen2 : (bezierStep t (a :: b :: c :: rest)).length = n - 1 := by
        rw [bezierStep, pairZip_length, hlen]
      rw [ih (n - 1) (by omega) _ hlen2 (by omega)]
      have hdl : (a :: b :: c :: rest).dropLast = a :: b :: (c :: rest).dropLast := rfl
      congr 1
      · rw [show (bezierStep t (a :: b :: c :: rest)).dropLast =
          bezierStep t (a :: b :: c :: rest).dropLast from pairZip_dropLast _ _]
        rw [hdl, ← bezier_cons_step]
      · rw [show (bezierStep t (a :: b :: c :: rest)).tail =
          bezierStep t (a :: b :: c :: rest).tail from pairZip_tail _ _]
        rw [show (a :: b :: c :: rest).tail = b :: c :: rest from rfl, ← bezier_cons_step]

theorem lerp2_sub2 (a1 a2 b1 b2 : Vec2) (t : ℝ) :
    lerp2 (sub2 a1 a2) (sub2 b1 b2) t = sub2 (lerp2 a1 b1 t) (lerp2 a2 b2 t) := by
  simp only [lerp2, sub2, mix, Prod.mk.injEq]
  constructor <;> ring

theorem lerp2_mul2 (a b : Vec2) (c t : ℝ) :
    lerp2 (mul2 a c) (mul2 b c) t = mul2 (lerp2 a b t) c := by
  simp only [lerp2, mul2, mix, Prod.mk.injEq]
  constructor <;> ring

/-- One reduction round commutes with pointwise differences. -/
theorem bezierStep_zipSub (t : ℝ) :
    ∀ (l1 l2 : List Vec2), l1.length = l2.length →
      bezierStep t (List.zipWith sub2 l1 l2) =
        List.zipWith sub2 (bezierStep t l1) (bezierStep t l2) := by
  intro l1
  induction l1 with
  | nil => intro l2 _; rfl
  | cons a1 tl1 ih =>
    intro l2 hlen
    cases l2 with
    | nil => simp at hlen
    | cons a2 tl2 =>
      cases tl1 with
      | nil =>
        cases tl2 with
        | nil => rfl
        | cons b2 r2 => simp at hlen
      | cons b1 r1 =>
        cases tl2 with
        | nil => simp at hlen
        | cons b2 r2 =>
          have hih := ih (b2 :: r2) (by simpa using hlen)
          show lerp2 (sub2 a1 a2) (sub2 b1 b2) t ::
              bezierStep t (List.zipWith sub2 (b1 :: r1) (b2 :: r2)) = _
          rw [hih, lerp2_sub2]
          rfl

/-- One reduction round commutes with pointwise scaling. -/
theorem bezierStep_map_mul (t c : ℝ) :
    ∀ (l : List Vec2),
      bezierStep t (l.map fun v => mul2 v c) =
        (bezierStep t l).map fun v => mul2 v c := by
  intro l
  induction l with
  | nil => rfl
  | cons a tl ih =>
    cases tl with
    | nil => rfl
    | cons b r =>
      show lerp2 (mul2 a c) (mul2 b c) t ::
          bezierStep t ((b :: r).map fun v => mul2 v c) = _
      rw [ih, lerp2_mul2]
      rfl

/-- The evaluation is additive in the control points (stated for
differences). -/
theorem bezier_zipSub (t : ℝ) :
    ∀ (n : ℕ) (l1 l2 : List Vec2), l1.length = n → l2.length = n →
      bezier t (List.zipWith sub2 l1 l2) = sub2 (bezier t l1) (bezier t l2) := by
  intro n
  induction n using Nat.strong_induction_on with
  | _ n ih =>
    intro l1 l2 h1 h2
    match l1, l2, h1, h2 with
    | [], [], _, _ =>
      show bezier t [] = sub2 (bezier t []) (bezier t [])
      show (((0 : ℝ), (0 : ℝ)) : Vec2) = sub2 (0, 0) (0, 0)
      simp [sub2]
    | [a1], [a2], _, _ => rfl
    | (a1 :: b1 :: r1), (a2 :: b2 :: r2), h1, h2 =>
      have hz : List.zipWith sub2 (a1 :: b1 :: r1) (a2 :: b2 :: r2) =
          sub2 a1 a2 :: sub2 b1 b2 :: List.zipWith sub2 r1 r2 := rfl
      rw [hz, bezier_cons_step, ← hz, bezierStep_zipSub t _ _ (by simp at h1 h2 ⊢; omega)]
      have hr1 : r1.length + 1 = n - 1 := by simp at h1; omega
      have hr2 : r2.length + 1 = n - 1 := by simp at h2; omega
      rw [ih (n - 1) (by simp at h1; omega) _ _
        (by rw [bezierStep, pairZip_length]; simp; omega)
        (by rw [bezierStep, pairZip_length]; simp; omega)]
      rw [← bezier_cons_step, ← bezier_cons_step]
    | [a1], (a2 :: b2 :: r2), h1, h2 => simp at h1 h2; omega
    | (a1 :: b1 :: r1), [a2], h1, h2 => simp at h1 h2; omega
    | [], (a2 :: r2), h1, h2 => simp at h1 h2; omega
    | (a1 :: r1), [], h1, h2 => simp at h1 h2; omega

/-- The evaluation is homogeneous in the control points. -/
theorem bezier_map_mul (t c : ℝ) :
    ∀ (n : ℕ) (l : List Vec2), l.length = n →
      bezier t (l.map fun v => mul2 v c) = mul2 (bezier t l) c := by
  intro n
  induction n using Nat.strong_induction_on with
  | _ n ih =>
    intro l hlen
    match l, hlen with
    | [], _ =>
      show (((0 : ℝ), (0 : ℝ)) : Vec2) = mul2 (0, 0) c
      simp [mul2]
    | [a], _ => rfl
    | (a :: b :: r), hlen =>
      have hm : (a :: b :: r).map (fun v => mul2 v c) =
          mul2 a c :: mul2 b c :: r.map fun v => mul2 v c := rfl
      rw [hm, bezier_cons_step, ← hm, bezierStep_map_mul]
      rw [ih (n - 1) (by simp at hlen; omega) _
        (by rw [bezierStep, pairZip_length]; simp at hlen ⊢; omega)]
      rw [← bezier_cons_step]

/-- The difference array equals the pointwise difference of the shifted
and truncated control lists. -/
theorem diffs_eq : ∀ l : List Vec2, diffs l = List.zipWith sub2 l.tail l.dropLast := by
  intro l
  match l with
  | [] => rfl
  | [a] => rfl
  | (a :: b :: r) =>
    have hd : diffs (a :: b :: r) = sub2 b a :: diffs (b :: r) := rfl
    have ih := diffs_eq (b :: r)
    rw [hd, ih]
    rfl

theorem hasDerivAt_comp_fst {F : ℝ → Vec2} {v : Vec2} {t : ℝ}
    (h : HasDerivAt F v t) : HasDerivAt (fun s => (F s).1) v.1 t := by
  have h2 := (hasFDerivAt_fst (𝕜 := ℝ) (E := ℝ) (F := ℝ)).comp_hasDerivAt t h
  simpa using h2

theorem hasDerivAt_comp_snd {F : ℝ → Vec2} {v : Vec2} {t : ℝ}
    (h : HasDerivAt F v t) : HasDerivAt (fun s => (F s).2) v.2 t := by
  have h2 := (hasFDerivAt_snd (𝕜 := ℝ) (E := ℝ) (F := ℝ)).comp_hasDerivAt t h
  simpa using h2

theorem hasDerivAt_mix_comb (f g : ℝ → ℝ) (f' g' t : ℝ)
    (hf : HasDerivAt f f' t) (hg : HasDerivAt g g' t) :
    HasDerivAt (fun s => f s * (1 - s) + g s * s)
      ((f' * (1 - t) + f t * (0 - 1)) + (g' * t + g t * 1)) t :=
  (hf.mul ((hasDerivAt_const t (1:ℝ)).sub (hasDerivAt_id t))).add (hg.mul (hasDerivAt_id t))

/-- The true derivative of the De Casteljau evaluation: the difference
bezier scaled by the DEGREE `n - 1`, not by the size `n`. -/
theorem bezier_hasDerivAt :
    ∀ (n : ℕ), 2 ≤ n → ∀ (l : List Vec2) (t : ℝ), l.length = n →
      HasDerivAt (fun s => bezier s l) (mul2 (bezier t (diffs l)) ((n : ℝ) - 1)) t := by
  intro n
  induction n using Nat.strong_induction_on with
  | _ n ih =>
    intro hn l t hlen
    by_cases h2 : n = 2
    · subst h2
      match l, hlen with
      | [a, b], _ =>
        have hc1 : HasDerivAt (fun s : ℝ => a.1 * (1 - s) + b.1 * s)
            (((0:ℝ) * (1 - t) + a.1 * (0 - 1)) + ((0:ℝ) * t + b.1 * 1)) t :=
          hasDerivAt_mix_comb _ _ _ _ t (hasDerivAt_const t a.1) (hasDerivAt_const t b.1)
        have hc2 : HasDerivAt (fun s : ℝ => a.2 * (1 - s) + b.2 * s)
            (((0:ℝ) * (1 - t) + a.2 * (0 - 1)) + ((0:ℝ) * t + b.2 * 1)) t :=
          hasDerivAt_mix_comb _ _ _ _ t (hasDerivAt_const t a.2) (hasDerivAt_const t b.2)
        have hveq : mul2 (bezier t (diffs [a, b])) (((2:ℕ) : ℝ) - 1) =
            ((((0:ℝ) * (1 - t) + a.1 * (0 - 1)) + ((0:ℝ) * t + b.1 * 1)),
             (((0:ℝ) * (1 - t) + a.2 * (0 - 1)) + ((0:ℝ) * t + b.2 * 1))) := by
          show mul2 (sub2 b a) _ = _
          simp only [mul2, sub2, Prod.mk.injEq]
          norm_num
          constructor <;> ring
        rw [hveq]
        exact hc1.prod hc2
    · have h3 : 3 ≤ n := by omega
      have hld : l.dropLast.length = n - 1 := by rw [List.length_dropLast, hlen]
      have hlt : l.tail.length = n - 1 := by rw [List.length_tail, hlen]
      have ihd := ih (n - 1) (by omega) (by omega) l.dropLast t hld
      have iht := ih (n - 1) (by omega) (by omega) l.tail t hlt
      have hd1 := hasDerivAt_comp_fst ihd
      have hd2 := hasDerivAt_comp_snd ihd
      have ht1 := hasDerivAt_comp_fst iht
      have ht2 := hasDerivAt_comp_snd iht
      have hc1 := hasDerivAt_mix_comb _ _ _ _ t hd1 ht1
      have hc2 := hasDerivAt_mix_comb _ _ _ _ t hd2 ht2
      have hF : ∀ s : ℝ, bezier s l = lerp2 (bezier s l.dropLast) (bezier s l.tail) s :=
        fun s => bezier_split s n l hlen (by omega)
      have hfun : (fun s : ℝ => bezier s l) =
          (fun s : ℝ => ((bezier s l.dropLast).1 * (1 - s) + (bezier s l.tail).1 * s,
            (bezier s l.dropLast).2 * (1 - s) + (bezier s l.tail).2 * s)) :=
        funext fun s => by rw [hF s]; rfl
      have hdlen : (diffs l).length = n - 1 := by
        rw [diffs, pairZip_length, hlen]
      have hsub : bezier t (diffs l) = sub2 (bezier t l.tail) (bezier t l.dropLast) := by
        rw [diffs_eq]
        exact bezier_zipSub t (n - 1) _ _ hlt hld
      have hsplit : bezier t (diffs l) =
          lerp2 (bezier t (diffs l.dropLast)) (bezier t (diffs l.tail)) t := by
        have h := bezier_split t (n - 1) (diffs l) hdlen (by omega)
        rw [h]
        simp only [diffs]
        rw [pairZip_dropLast, pairZip_tail]
      have hsub1 : (bezier t (diffs l)).1 =
          (bezier t l.tail).1 - (bezier t l.dropLast).1 := by rw [hsub]; rfl
      have hsub2 : (bezier t (diffs l)).2 =
          (bezier t l.tail).2 - (bezier t l.dropLast).2 := by rw [hsub]; rfl
      have hsp1 : (bezier t (diffs l)).1 =
          (bezier t (diffs l.dropLast)).1 * (1 - t) + (bezier t (diffs l.tail)).1 * t := by
        rw [hsplit]; rfl
      have hsp2 : (bezier t (diffs l)).2 =
          (bezier t (diffs l.dropLast)).2 * (1 - t) + (bezier t (diffs l.tail)).2 * t := by
        rw [hsplit]; rfl
      have hcast : ((n - 1 : ℕ) : ℝ) = (n : ℝ) - 1 := by
        rw [Nat.cast_sub (by omega : 1 ≤ n), Nat.cast_one]
      rw [hcast] at hc1 hc2
      have hveq : mul2 (bezier t (diffs l)) ((n : ℝ) - 1) =
          (((mul2 (bezier t (diffs l.dropLast)) ((n : ℝ) - 1 - 1)).1 * (1 - t) +
              (bezier t l.dropLast).1 * (0 - 1)) +
            ((mul2 (bezier t (diffs l.tail)) ((n : ℝ) - 1 - 1)).1 * t +
              (bezier t l.tail).1 * 1),
           ((mul2 (bezier t (diffs l.dropLast)) ((n : ℝ) - 1 - 1)).2 * (1 - t) +
              (bezier t l.dropLast).2 * (0 - 1)) +
            ((mul2 (bezier t (diffs l.tail)) ((n : ℝ) - 1 - 1)).2 * t +
              (bezier t l.tail).2 * 1)) := by
        simp only [mul2, Prod.mk.injEq]
        constructor
        · linear_combination ((n : ℝ) - 2) * hsp1 + hsub1
        · linear_combination ((n : ℝ) - 2) * hsp2 + hsub2
      rw [hfun, hveq]
      exact hc1.prod hc2

/-- The scaled difference array is the difference array scaled pointwise
by the control-point count. -/
theorem scaledDiffs_eq (l : List Vec2) :
    scaledDiffs l = (diffs l).map fun v => mul2 v (l.length : ℝ) := by
  simp only [diffs, scaledDiffs, pairZip, List.map_zipWith]

/-- bezier_derivative is the bezier of the difference array scaled by the
control-point COUNT (the source multiplies by `size`). -/
theorem bezier_derivative_eq (t : ℝ) (l : List Vec2) :
    bezier_derivative t l = mul2 (bezier t (diffs l)) (l.length : ℝ) := by
  rw [show bezier_derivative t l = bezier t (scaledDiffs l) from rfl, scaledDiffs_eq]
  exact bezier_map_mul t _ (diffs l).length _ rfl

/-- C6: the claim fails — for the 2-point Bezier [(0,0),(1,0)] at t = 1/2
the code's bezier_derivative returns (2,0), but the curve s ↦ bezier(s, B)
is s ↦ (s, 0), whose mathematical derivative (tangent vector) at every t
is (1,0): the hodograph is scaled by the control-point count 2 instead of
the degree 1. -/
theorem C6_derivative_scaled_by_size_not_degree :
    bezier_derivative (1/2) [((0:ℝ), (0:ℝ)), (1, 0)] = (2, 0) ∧
    HasDerivAt (fun s => bezier s [((0:ℝ), (0:ℝ)), (1, 0)]) ((1:ℝ), (0:ℝ)) (1/2) ∧
    ((2:ℝ), (0:ℝ)) ≠ ((1:ℝ), (0:ℝ)) := by
  refine ⟨?_, ?_, ?_⟩
  · rw [bezier_derivative_eq]
    norm_num [diffs, pairZip, bezier_single, mul2, sub2, Prod.mk.injEq]
  · have h := bezier_hasDerivAt 2 (by norm_num) [((0:ℝ), (0:ℝ)), (1, 0)] (1/2) rfl
    have hv : mul2 (bezier (1/2) (diffs [((0:ℝ), (0:ℝ)), (1, 0)]))
        ((((2:ℕ)) : ℝ) - 1) = ((1:ℝ), (0:ℝ)) := by
      norm_num [diffs, pairZip, bezier_single, mul2, sub2, Prod.mk.injEq]
    rw [hv] at h
    exact h
  · norm_num [Prod.mk.injEq]

/-- C6 (amended): for every Bezier with 2 to 11 control points and every t,
the curve s ↦ bezier(s, B) has at t the derivative
bezier_derivative(t, B) · (n−1)/n where n is the control-point count: the
code's value is the tangent vector scaled by n/(n−1), because the hodograph
is multiplied by the size n instead of the degree n−1. -/
theorem C6_bezier_derivative_off_by_ratio (l : List Vec2) (t : ℝ)
    (h2 : 2 ≤ l.length) (h11 : l.length ≤ 11) :
    HasDerivAt (fun s => bezier s l)
      (mul2 (bezier_derivative t l) (((l.length : ℝ) - 1) / (l.length : ℝ))) t := by
  have h := bezier_hasDerivAt l.length h2 l t rfl
  have hn : (l.length : ℝ) ≠ 0 := by
    have : (0:ℝ) < (l.length : ℝ) := by exact_mod_cast (by omega : 0 < l.length)
    linarith
  have hv : mul2 (bezier_derivative t l) (((l.length : ℝ) - 1) / (l.length : ℝ)) =
      mul2 (bezier t (diffs l)) ((l.length : ℝ) - 1) := by
    rw [bezier_derivative_eq]
    simp only [mul2, Prod.mk.injEq]
    constructor <;> (field_simp; ring)
  rw [hv]
  exact h

theorem C6_bezier_derivative_off_by_ratio_witness :
    2 ≤ ([((0:ℝ), (0:ℝ)), (1, 0), (0, 1)] : List Vec2).length ∧
    ([((0:ℝ), (0:ℝ)), (1, 0), (0, 1)] : List Vec2).length ≤ 11 ∧
    HasDerivAt (fun s => bezier s [((0:ℝ), (0:ℝ)), (1, 0), (0, 1)])
      (mul2 (bezier_derivative (1/3) [((0:ℝ), (0:ℝ)), (1, 0), (0, 1)])
        (((([((0:ℝ), (0:ℝ)), (1, 0), (0, 1)] : List Vec2).length : ℝ) - 1) /
          (([((0:ℝ), (0:ℝ)), (1, 0), (0, 1)] : List Vec2).length : ℝ))) (1/3) :=
  ⟨by norm_num, by norm_num,
    C6_bezier_derivative_off_by_ratio _ (1/3) (by norm_num) (by norm_num)⟩

theorem obsEq_refl (s : Scene) : ObsEq s s :=
  ⟨rfl, fun _ _ => ⟨rfl, rfl, fun _ _ => rfl⟩⟩

theorem obsEq_trans {s1 s2 s3 : Scene} (h12 : ObsEq s1 s2) (h23 : ObsEq s2 s3) :
    ObsEq s1 s3 := by
  obtain ⟨hs12, hl12⟩ := h12
  obtain ⟨hs23, hl23⟩ := h23
  refine ⟨hs12.trans hs23, fun li hli => ?_⟩
  have hli2 : li < s2.size := hs23 ▸ hli
  obtain ⟨hf12, hz12, hg12⟩ := hl12 li hli2
  obtain ⟨hf23, hz23, hg23⟩ := hl23 li hli
  exact ⟨hf12.trans hf23, hz12.trans hz23,
    fun gi hgi => (hg12 gi (hz23 ▸ hgi)).trans (hg23 gi hgi)⟩

/-- A write into a geom slot at or above the layer's committed count is
unobservable. -/
theorem obsEq_modGeom (s : Scene) (li gi : ℕ) (f : Geom → Geom)
    (hgi : (s.layers li).size ≤ gi) : ObsEq (modGeom s li gi f) s := by
  refine ⟨rfl, fun lj _ => ?_⟩
  simp only [modGeom, modLayer]
  by_cases hl : lj = li
  · subst hl
    rw [Function.update_same]
    exact ⟨rfl, rfl, fun gj hgj => Function.update_noteq (by omega) _ _⟩
  · rw [Function.update_noteq hl]
    exact ⟨rfl, rfl, fun _ _ => rfl⟩

theorem modGeom_layer_size (s : Scene) (li gi : ℕ) (f : Geom → Geom) (lj : ℕ) :
    ((modGeom s li gi f).layers lj).size = (s.layers lj).size := by
  simp only [modGeom, modLayer]
  by_cases hl : lj = li
  · subst hl; rw [Function.update_same]
  · rw [Function.update_noteq hl]

theorem parse_layer_err (s : Scene) (line : List Char) (cursor stop : ℕ)
    (h : (parse_layer s line cursor stop).1 ≠ OK) :
    (parse_layer s line cursor stop).2.2 = s := by
  simp only [parse_layer] at h ⊢
  split_ifs at h ⊢ with h1
  · rfl
  · exact absurd rfl h

theorem parse_round_err_aux (cfg : Cfg) (fuel : ℕ)
    (ih : ∀ (s : Scene) (line : List Char) (cursor stop : ℕ),
      (parse_line cfg fuel s line cursor stop).1 ≠ OK →
      ObsEq (parse_line cfg fuel s line cursor stop).2.2 s)
    (s : Scene) (line : List Char) (cursor stop li gi : ℕ)
    (hgi : (s.layers li).size ≤ gi)
    (h : (parse_round cfg fuel s line cursor stop li gi).1 ≠ OK) :
    ObsEq (parse_round cfg fuel s line cursor stop li gi).2.2 s := by
  simp only [parse_round] at h ⊢
  split_ifs at h ⊢ with h1 h2
  · exact obsEq_refl s
  · exact obsEq_trans (ih _ line _ stop h2) (obsEq_modGeom s li gi _ hgi)
  · exact absurd rfl h

theorem parse_line_err_aux (cfg : Cfg) :
    ∀ (fuel : ℕ) (s : Scene) (line : List Char) (cursor stop : ℕ),
      (parse_line cfg fuel s line cursor stop).1 ≠ OK →
      ObsEq (parse_line cfg fuel s line cursor stop).2.2 s := by
  intro fuel
  induction fuel with
  | zero =>
    intro s line cursor stop _
    simp only [parse_line]
    exact obsEq_refl s
  | succ fuel ih =>
    intro s line cursor stop h
    simp only [parse_line] at h ⊢
    by_cases h1 : List.takeWhile (fun c => c != '(')
        (List.take (min (stop - cursor) 32) (List.drop cursor line)) = "LAYER".toList
    · rw [if_pos h1] at h ⊢
      by_cases h2 : MAX_LAYER ≤ s.size
      · rw [if_pos h2]
        exact obsEq_refl s
      · rw [if_neg h2] at h ⊢
        rw [parse_layer_err s line cursor stop h]
        exact obsEq_refl s
    · rw [if_neg h1] at h ⊢
      by_cases h2 : s.size = 0
      · rw [if_pos h2]
        exact obsEq_refl s
      · rw [if_neg h2] at h ⊢
        by_cases h3 : MAX_GEOMS_PER_LAYER ≤ (s.layers (s.size - 1)).size
        · rw [if_pos h3]
          exact obsEq_refl s
        · rw [if_neg h3] at h ⊢
          by_cases h4 : List.takeWhile (fun c => c != '(')
              (List.take (min (stop - cursor) 32) (List.drop cursor line)) = "ROUND".toList
          · rw [if_pos h4] at h ⊢
            exact parse_round_err_aux cfg fuel ih s line cursor stop _ _ (le_refl _) h
          · rw [if_neg h4] at h ⊢
            by_cases h5 : List.takeWhile (fun c => c != '(')
                (List.take (min (stop - cursor) 32) (List.drop cursor line)) = "POINT".toList
            · rw [if_pos h5] at h ⊢
              revert h
              split
              · intro _
                exact obsEq_trans
                  (obsEq_modGeom _ _ _ _ (le_of_eq (modGeom_layer_size s _ _ _ _)))
                  (obsEq_modGeom s _ _ _ (le_refl _))
              · intro h
                exact absurd rfl h
            · rw [if_neg h5] at h ⊢
              by_cases h6 : List.takeWhile (fun c => c != '(')
                  (List.take (min (stop - cursor) 32) (List.drop cursor line)) = "SEGMENT".toList
              · rw [if_pos h6] at h ⊢
                revert h
                split
                · intro _
                  exact obsEq_trans
                    (obsEq_modGeom _ _ _ _ (le_of_eq (modGeom_layer_size s _ _ _ _)))
                    (obsEq_modGeom s _ _ _ (le_refl _))
                · intro h
                  exact absurd rfl h
              · rw [if_neg h6] at h ⊢
                by_cases h7 : List.takeWhile (fun c => c != '(')
                    (List.take (min (stop - cursor) 32) (List.drop cursor line)) = "BEZIER".toList
                · rw [if_pos h7] at h ⊢
                  revert h
                  split
                  · intro _
                    exact obsEq_trans
                      (obsEq_modGeom _ _ _ _ (le_of_eq (modGeom_layer_size s _ _ _ _)))
                      (obsEq_modGeom s _ _ _ (le_refl _))
                  · intro h
                    exact absurd rfl h
                · rw [if_neg h7]
                  exact obsEq_refl s

/-- C8: whenever parse_line returns a non-OK error code, the observable
scene state — the number of layers, each committed layer's fusion mode
and geom count, and every geom stored below its layer's count — is
unchanged by the call. -/
theorem C8_parse_line_error_keeps_observable_state
    (cfg : Cfg) (fuel : ℕ) (s : Scene) (line : List Char) (cursor stop : ℕ)
    (h : (parse_line cfg fuel s line cursor stop).1 ≠ OK) :
    ObsEq (parse_line cfg fuel s line cursor stop).2.2 s :=
  parse_line_err_aux cfg fuel s line cursor stop h

theorem C8_parse_line_error_keeps_observable_state_witness :
    (parse_line (mkCfg 1 1) 1 emptyScene ['Z'] 0 1).1 ≠ OK ∧
    ObsEq (parse_line (mkCfg 1 1) 1 emptyScene ['Z'] 0 1).2.2 emptyScene :=
  ⟨by simp +decide [parse_line, emptyScene, OK, E_PARSE_NEED_LAYER],
   C8_parse_line_error_keeps_observable_state (mkCfg 1 1) 1 emptyScene ['Z'] 0 1
     (by simp +decide [parse_line, emptyScene, OK, E_PARSE_NEED_LAYER])⟩

theorem resolveCtrl_congr (L L' : Layer) (bz : BezierRef)
    (h : ∀ k < bz.bsize, (L'.geoms (bz.points k)).point = (L.geoms (bz.points k)).point) :
    resolveCtrl L' bz = resolveCtrl L bz := by
  simp only [resolveCtrl]
  apply List.map_congr_left
  intro k hk
  rw [h k (List.mem_range.mp hk)]

/-- BezWF only looks at the layer's committed count and the point fields
the committed slots hold. -/
theorem bezWF_transfer (L L' : Layer) (g : Geom)
    (hsz : L.size ≤ L'.size)
    (hpt : ∀ j < L.size, (L'.geoms j).point = (L.geoms j).point)
    (h : BezWF L g) : BezWF L' g := by
  intro hg
  obtain ⟨h1, h2, h3⟩ := h hg
  refine ⟨h1, fun k hk => lt_of_lt_of_le (h2 k hk) hsz, fun i hi => ?_⟩
  rw [h3 i hi, resolveCtrl_congr L L' g.bezier fun k hk => hpt _ (h2 k hk)]

/-- Observable equality transports the Bezier storage invariant. -/
theorem bezInv_of_obsEq {s' s : Scene} (he : ObsEq s' s) (h : BezInv s) :
    BezInv s' := by
  obtain ⟨hsz, hl⟩ := he
  intro li hli gi hgi
  have hli' : li < s.size := hsz ▸ hli
  obtain ⟨_, hlsz, hgm⟩ := hl li hli'
  have hgi' : gi < (s.layers li).size := hlsz ▸ hgi
  rw [hgm gi hgi']
  exact bezWF_transfer (s.layers li) (s'.layers li) _ (le_of_eq hlsz.symm)
    (fun j hj => congrArg Geom.point (hgm j hj)) (h li hli' gi hgi')

/-- Committing one new geom slot preserves the Bezier storage invariant
provided the new slot itself satisfies it in the new layer state. -/
theorem bezInv_commit {s s' : Scene} (li gi : ℕ)
    (hsz : s'.size = s.size)
    (hli : li < s.size)
    (hgi : gi = (s.layers li).size)
    (hother : ∀ lj, lj ≠ li → s'.layers lj = s.layers lj)
    (hlsz : (s'.layers li).size = (s.layers li).size + 1)
    (hbelow : ∀ gj < (s.layers li).size, (s'.layers li).geoms gj = (s.layers li).geoms gj)
    (hnew : BezWF (s'.layers li) ((s'.layers li).geoms gi))
    (h : BezInv s) : BezInv s' := by
  intro lj hlj gj hgj
  by_cases hl : lj = li
  · subst hl
    rcases Nat.lt_succ_iff_lt_or_eq.mp (by rw [hlsz] at hgj; exact hgj) with hlt | heq
    · rw [hbelow gj hlt]
      refine bezWF_transfer (s.layers lj) (s'.layers lj) _ (by rw [hlsz]; omega)
        (fun j hj => congrArg Geom.point (hbelow j hj)) (h lj hli gj hlt)
    · rw [heq, ← hgi]
      exact hnew
  · rw [hother lj hl]
    exact h lj (by rw [hsz] at hlj; exact hlj) gj (by rw [hother lj hl] at hgj; exact hgj)

/-- A geom write that keeps the slot's type tag, bezier data and point
data (parse_round's final round_r/bbox write) preserves the Bezier
storage invariant, wherever the slot is. -/
theorem bezInv_point_preserving_write (s : Scene) (li gi : ℕ) (f : Geom → Geom)
    (hf : ∀ g, (f g).gtype = g.gtype ∧ (f g).bezier = g.bezier ∧ (f g).point = g.point)
    (h : BezInv s) : BezInv (modGeom s li gi f) := by
  intro lj hlj gj hgj
  have hlj' : lj < s.size := hlj
  by_cases hl : lj = li
  · subst hl
    have hlay : (modGeom s lj gi f).layers lj =
        { s.layers lj with
          geoms := Function.update (s.layers lj).geoms gi (f ((s.layers lj).geoms gi)) } := by
      simp only [modGeom, modLayer]
      rw [Function.update_same]
    rw [hlay] at hgj ⊢
    have hgj' : gj < (s.layers lj).size := hgj
    have hpt : ∀ j < (s.layers lj).size,
        (Function.update (s.layers lj).geoms gi (f ((s.layers lj).geoms gi)) j).point =
          ((s.layers lj).geoms j).point := by
      intro j _
      by_cases hj : j = gi
      · subst hj
        rw [Function.update_same]
        exact (hf _).2.2
      · rw [Function.update_noteq hj]
    by_cases hg : gj = gi
    · subst hg
      show BezWF _ (Function.update (s.layers lj).geoms gj (f ((s.layers lj).geoms gj)) gj)
      rw [Function.update_same]
      intro htype
      have htype0 : ((s.layers lj).geoms gj).gtype = 2 := by
        rw [← (hf ((s.layers lj).geoms gj)).1]
        exact htype
      obtain ⟨h1, h2, h3⟩ := h lj hlj' gj hgj' htype0
      rw [(hf ((s.layers lj).geoms gj)).2.1]
      refine ⟨h1, h2, fun i hi => ?_⟩
      refine (h3 i hi).trans ?_
      exact congrArg (bezier _)
        (resolveCtrl_congr (s.layers lj) _ ((s.layers lj).geoms gj).bezier
          fun k hk => hpt _ (h2 k hk)).symm
    · show BezWF _ (Function.update (s.layers lj).geoms gi (f ((s.layers lj).geoms gi)) gj)
      rw [Function.update_noteq hg]
      exact bezWF_transfer (s.layers lj) _ _ (le_refl _) hpt (h lj hlj' gj hgj')
  · have hlay : (modGeom s li gi f).layers lj = s.layers lj := by
      simp only [modGeom, modLayer]
      rw [Function.update_noteq hl]
    rw [hlay] at hgj ⊢
    exact h lj hlj' gj hgj

/-- Invariants of the parse_bezier control-point loop: the size grows by
at most the fuel, the lookup table and already stored entries are
untouched, and every newly stored control index was range-checked against
the layer's committed count. -/
theorem parse_bezier_loop_props (L : Layer) (line : List Char) (stop : ℕ) :
    ∀ (fuel cursor : ℕ) (bz : BezierRef),
      (parse_bezier_loop L line stop fuel cursor bz).2.2.bsize ≤ bz.bsize + fuel ∧
      (parse_bezier_loop L line stop fuel cursor bz).2.2.lut = bz.lut ∧
      bz.bsize ≤ (parse_bezier_loop L line stop fuel cursor bz).2.2.bsize ∧
      (∀ k, k < bz.bsize →
        (parse_bezier_loop L line stop fuel cursor bz).2.2.points k = bz.points k) ∧
      (∀ k, bz.bsize ≤ k →
        k < (parse_bezier_loop L line stop fuel cursor bz).2.2.bsize →
        (parse_bezier_loop L line stop fuel cursor bz).2.2.points k < L.size) := by
  intro fuel
  induction fuel with
  | zero =>
    intro cursor bz
    exact ⟨Nat.le_add_right _ _, rfl, le_refl _, fun _ _ => rfl,
      fun k h1 h2 => absurd (h2 : k < bz.bsize) (Nat.not_lt.mpr h1)⟩
  | succ fuel ih =>
    intro cursor bz
    by_cases hA : cursor < stop ∧ line.getD (cursor - 1) (Char.ofNat 0) ≠ ')'
    · by_cases hB : (parse_int line cursor stop).1 ≠ OK
      · have he : parse_bezier_loop L line stop (fuel + 1) cursor bz =
            ((parse_int line cursor stop).1, (parse_int line cursor stop).2.1, bz) := by
          simp only [parse_bezier_loop]
          rw [if_pos hA, if_pos hB]
        rw [he]
        exact ⟨Nat.le_add_right _ _, rfl, le_refl _, fun _ _ => rfl,
          fun k h1 h2 => absurd (h2 : k < bz.bsize) (Nat.not_lt.mpr h1)⟩
      · by_cases hC : 0 ≤ (parse_int line cursor stop).2.2 ∧
            (parse_int line cursor stop).2.2.toNat < L.size ∧
            (L.geoms (parse_int line cursor stop).2.2.toNat).gtype = 0
        · have he : parse_bezier_loop L line stop (fuel + 1) cursor bz =
              parse_bezier_loop L line stop fuel ((parse_int line cursor stop).2.1 + 1)
                { bz with
                  points := Function.update bz.points bz.bsize
                    (parse_int line cursor stop).2.2.toNat
                  bsize := bz.bsize + 1 } := by
            simp only [parse_bezier_loop]
            rw [if_pos hA, if_neg hB, if_pos hC]
          rw [he]
          generalize hg : ({ bz with
              points := Function.update bz.points bz.bsize
                (parse_int line cursor stop).2.2.toNat
              bsize := bz.bsize + 1 } : BezierRef) = bz'
          obtain ⟨i1, i2, i3, i4, i5⟩ := ih ((parse_int line cursor stop).2.1 + 1) bz'
          have hb : bz'.bsize = bz.bsize + 1 := by rw [← hg]
          have hp : bz'.points = Function.update bz.points bz.bsize
              (parse_int line cursor stop).2.2.toNat := by rw [← hg]
          have hl : bz'.lut = bz.lut := by rw [← hg]
          refine ⟨by omega, by rw [i2, hl], by omega, ?_, ?_⟩
          · intro k hk
            rw [i4 k (by omega), hp]
            exact Function.update_noteq (by omega) _ _
          · intro k h1 h2
            rcases Nat.eq_or_lt_of_le h1 with heq | hlt
            · rw [i4 k (by omega), hp, ← heq, Function.update_same]
              exact hC.2.1
            · exact i5 k (by omega) h2
        · have he : parse_bezier_loop L line stop (fuel + 1) cursor bz =
              (E_PARSE_ISEGMENT_BAD_INDEX, (parse_int line cursor stop).2.1 + 1, bz) := by
            simp only [parse_bezier_loop]
            rw [if_pos hA, if_neg hB, if_neg hC]
          rw [he]
          exact ⟨Nat.le_add_right _ _, rfl, le_refl _, fun _ _ => rfl,
            fun k h1 h2 => absurd (h2 : k < bz.bsize) (Nat.not_lt.mpr h1)⟩
    · have he : parse_bezier_loop L line stop (fuel + 1) cursor bz = (OK, cursor, bz) := by
        simp only [parse_bezier_loop]
        rw [if_neg hA]
      rw [he]
      exact ⟨Nat.le_add_right _ _, rfl, le_refl _, fun _ _ => rfl,
        fun k h1 h2 => absurd (h2 : k < bz.bsize) (Nat.not_lt.mpr h1)⟩

/-- A successful parse_bezier returns a control sequence within capacity,
all indices below the layer's committed count, and the recomputed lookup
table. -/
theorem parse_bezier_props (L : Layer) (line : List Char) (cursor stop : ℕ)
    (bz : BezierRef) (h : (parse_bezier L line cursor stop bz).1 = OK) :
    (parse_bezier L line cursor stop bz).2.2.bsize ≤ MAX_BEZIER_POINT ∧
    (∀ k < (parse_bezier L line cursor stop bz).2.2.bsize,
      (parse_bezier L line cursor stop bz).2.2.points k < L.size) ∧
    ∀ i < BEZIER_LUT_SIZE,
      (parse_bezier L line cursor stop bz).2.2.lut i =
        bezier ((i : ℝ) / ((BEZIER_LUT_SIZE : ℝ) - 1))
          (resolveCtrl L (parse_bezier L line cursor stop bz).2.2) := by
  obtain ⟨p1, p2, p3, p4, p5⟩ := parse_bezier_loop_props L line stop MAX_BEZIER_POINT
    (cursor + 7) { bz with bsize := 0 }
  have hz : ({ bz with bsize := 0 } : BezierRef).bsize = 0 := rfl
  simp only [parse_bezier] at h ⊢
  split_ifs at h ⊢ with h1
  · exact absurd h h1
  · refine ⟨?_, ?_, ?_⟩ <;> dsimp only
    · omega
    · intro k hk
      exact p5 k (by omega) hk
    · intro i hi
      rw [if_pos hi]
      rfl

/-- Two successive writes into the same geom slot compose. -/
theorem modGeom_modGeom (s : Scene) (li gi : ℕ) (f f2 : Geom → Geom) :
    modGeom (modGeom s li gi f) li gi f2 = modGeom s li gi fun g => f2 (f g) := by
  simp only [modGeom, modLayer, Function.update_same, Function.update_idem]

/-- Starting a fresh layer preserves the Bezier storage invariant: the new
layer is empty and the old layers are untouched. -/
theorem bezInv_new_layer (s : Scene) (v : ℤ) (hinv : BezInv s) :
    BezInv ⟨Function.update s.layers s.size
      { s.layers s.size with fusion := v, size := 0 }, s.size + 1⟩ := by
  intro li hli gi hgi
  by_cases hl : li = s.size
  · subst hl
    exfalso
    have hz : ((⟨Function.update s.layers s.size
        { s.layers s.size with fusion := v, size := 0 }, s.size + 1⟩ : Scene).layers s.size).size = 0 := by
      show (Function.update s.layers s.size _ s.size).size = 0
      rw [Function.update_same]
    omega
  · have hlay : ((⟨Function.update s.layers s.size
        { s.layers s.size with fusion := v, size := 0 }, s.size + 1⟩ : Scene).layers li) =
        s.layers li := by
      show Function.update s.layers s.size _ li = s.layers li
      exact Function.update_noteq hl _ _
    rw [hlay] at hgi ⊢
    have hli' : li < s.size := by
      have : li < s.size + 1 := hli
      omega
    exact hinv li hli' gi hgi

/-- parse_layer, whether it fails or commits a fresh layer, preserves the
Bezier storage invariant. -/
theorem bezInv_parse_layer (s : Scene) (line : List Char) (cursor stop : ℕ)
    (hinv : BezInv s) : BezInv (parse_layer s line cursor stop).2.2 := by
  simp only [parse_layer]
  split_ifs with h1
  · exact hinv
  · exact bezInv_new_layer s _ hinv

theorem commit_layer_size (s : Scene) (li gi : ℕ) (F : Geom → Geom) :
    ((modLayer (modGeom s li gi F) li fun l =>
      { l with size := l.size + 1 }).layers li).size = (s.layers li).size + 1 := by
  show (Function.update (modGeom s li gi F).layers li _ li).size = _
  rw [Function.update_same]
  show ((modGeom s li gi F).layers li).size + 1 = _
  rw [modGeom_layer_size]

theorem commit_layer_geoms (s : Scene) (li gi : ℕ) (F : Geom → Geom) :
    ((modLayer (modGeom s li gi F) li fun l =>
      { l with size := l.size + 1 }).layers li).geoms =
      Function.update (s.layers li).geoms gi (F ((s.layers li).geoms gi)) := by
  show (Function.update (modGeom s li gi F).layers li _ li).geoms = _
  rw [Function.update_same]
  show ((modGeom s li gi F).layers li).geoms = _
  simp only [modGeom, modLayer]
  rw [Function.update_same]

/-- Committing a geom built in the scratch slot (write the slot with F,
then increment the layer's count) preserves the Bezier storage invariant
provided the new geom satisfies it in the committed state. -/
theorem bezInv_commit_chain (s : Scene) (li gi : ℕ) (F : Geom → Geom)
    (hli : li < s.size) (hgi : gi = (s.layers li).size)
    (hnew : BezWF ((modLayer (modGeom s li gi F) li fun l =>
        { l with size := l.size + 1 }).layers li) (F ((s.layers li).geoms gi)))
    (hinv : BezInv s) :
    BezInv (modLayer (modGeom s li gi F) li fun l => { l with size := l.size + 1 }) := by
  refine @bezInv_commit s (modLayer (modGeom s li gi F) li fun l =>
      { l with size := l.size + 1 }) li gi rfl hli hgi ?_
    (commit_layer_size s li gi F) ?_ ?_ hinv
  · intro lj hlj
    show Function.update (modGeom s li gi F).layers li _ lj = _
    rw [Function.update_noteq hlj]
    simp only [modGeom, modLayer]
    rw [Function.update_noteq hlj]
  · intro gj hgj
    rw [commit_layer_geoms]
    exact Function.update_noteq (by omega) _ _
  · rw [show ((modLayer (modGeom s li gi F) li fun l =>
      { l with size := l.size + 1 }).layers li).geoms gi =
        F ((s.layers li).geoms gi) by rw [commit_layer_geoms, Function.update_same]]
    exact hnew

theorem modGeom_geoms_self (s : Scene) (li gi : ℕ) (f : Geom → Geom) :
    ((modGeom s li gi f).layers li).geoms =
      Function.update (s.layers li).geoms gi (f ((s.layers li).geoms gi)) := by
  simp only [modGeom, modLayer]
  rw [Function.update_same]

theorem parse_round_bezInv_aux (cfg : Cfg) (fuel : ℕ)
    (ih : ∀ (s : Scene) (line : List Char) (cursor stop : ℕ),
      BezInv s → BezInv (parse_line cfg fuel s line cursor stop).2.2)
    (s : Scene) (line : List Char) (cursor stop li gi : ℕ)
    (hgi : (s.layers li).size ≤ gi)
    (hinv : BezInv s) :
    BezInv (parse_round cfg fuel s line cursor stop li gi).2.2 := by
  simp only [parse_round]
  split_ifs with h1 h2
  · exact hinv
  · exact ih _ line _ stop (bezInv_of_obsEq (obsEq_modGeom s li gi _ hgi) hinv)
  · exact bezInv_point_preserving_write _ li gi _ (fun g => ⟨rfl, rfl, rfl⟩)
      (ih _ line _ stop (bezInv_of_obsEq (obsEq_modGeom s li gi _ hgi) hinv))

theorem commit_geom_point_eq (s : Scene) (li gi : ℕ) (F f1 : Geom → Geom) (j : ℕ)
    (hj : j < (s.layers li).size) (hgi : gi = (s.layers li).size) :
    (((modLayer (modGeom s li gi F) li fun l =>
        { l with size := l.size + 1 }).layers li).geoms j).point =
      (((modGeom s li gi f1).layers li).geoms j).point := by
  rw [commit_layer_geoms, modGeom_geoms_self,
    Function.update_noteq (by omega), Function.update_noteq (by omega)]

theorem parse_line_bezInv_aux (cfg : Cfg) :
    ∀ (fuel : ℕ) (s : Scene) (line : List Char) (cursor stop : ℕ),
      BezInv s → BezInv (parse_line cfg fuel s line cursor stop).2.2 := by
  intro fuel
  induction fuel with
  | zero =>
    intro s line cursor stop hinv
    simp only [parse_line]
    exact hinv
  | succ fuel ih =>
    intro s line cursor stop hinv
    simp only [parse_line]
    by_cases h1 : List.takeWhile (fun c => c != '(')
        (List.take (min (stop - cursor) 32) (List.drop cursor line)) = "LAYER".toList
    · rw [if_pos h1]
      by_cases h2 : MAX_LAYER ≤ s.size
      · rw [if_pos h2]
        exact hinv
      · rw [if_neg h2]
        exact bezInv_parse_layer s line cursor stop hinv
    · rw [if_neg h1]
      by_cases h2 : s.size = 0
      · rw [if_pos h2]
        exact hinv
      · rw [if_neg h2]
        by_cases h3 : MAX_GEOMS_PER_LAYER ≤ (s.layers (s.size - 1)).size
        · rw [if_pos h3]
          exact hinv
        · rw [if_neg h3]
          by_cases h4 : List.takeWhile (fun c => c != '(')
              (List.take (min (stop - cursor) 32) (List.drop cursor line)) = "ROUND".toList
          · rw [if_pos h4]
            exact parse_round_bezInv_aux cfg fuel ih s line cursor stop _ _ (le_refl _) hinv
          · rw [if_neg h4]
            by_cases h5 : List.takeWhile (fun c => c != '(')
                (List.take (min (stop - cursor) 32) (List.drop cursor line)) = "POINT".toList
            · rw [if_pos h5]
              split
              · exact bezInv_of_obsEq
                  (obsEq_trans
                    (obsEq_modGeom _ _ _ _ (le_of_eq (modGeom_layer_size s _ _ _ _)))
                    (obsEq_modGeom s _ _ _ (le_refl _))) hinv
              · rw [modGeom_modGeom, modGeom_modGeom]
                refine bezInv_commit_chain s _ _ _ (by omega) rfl ?_ hinv
                intro ht
                exact absurd ht (by simp [set_bbox_point])
            · rw [if_neg h5]
              by_cases h6 : List.takeWhile (fun c => c != '(')
                  (List.take (min (stop - cursor) 32) (List.drop cursor line)) = "SEGMENT".toList
              · rw [if_pos h6]
                split
                · exact bezInv_of_obsEq
                    (obsEq_trans
                      (obsEq_modGeom _ _ _ _ (le_of_eq (modGeom_layer_size s _ _ _ _)))
                      (obsEq_modGeom s _ _ _ (le_refl _))) hinv
                · rw [modGeom_modGeom, modGeom_modGeom]
                  refine bezInv_commit_chain s _ _ _ (by omega) rfl ?_ hinv
                  intro ht
                  exact absurd ht (by simp [set_bbox_segment])
              · rw [if_neg h6]
                by_cases h7 : List.takeWhile (fun c => c != '(')
                    (List.take (min (stop - cursor) 32) (List.drop cursor line)) = "BEZIER".toList
                · rw [if_pos h7]
                  split
                  · exact bezInv_of_obsEq
                      (obsEq_trans
                        (obsEq_modGeom _ _ _ _ (le_of_eq (modGeom_layer_size s _ _ _ _)))
                        (obsEq_modGeom s _ _ _ (le_refl _))) hinv
                  · rename_i hc
                    rw [modGeom_modGeom, modGeom_modGeom]
                    refine bezInv_commit_chain s _ _ _ (by omega) rfl ?_ hinv
                    intro ht
                    dsimp only [set_bbox_bezier]
                    obtain ⟨b1, b2, b3⟩ := parse_bezier_props
                      ((modGeom s (s.size - 1) ((s.layers (s.size - 1)).size) fun g =>
                        { g with gtype := 2 }).layers (s.size - 1)) line cursor stop
                      (((modGeom s (s.size - 1) ((s.layers (s.size - 1)).size) fun g =>
                        { g with gtype := 2 }).layers (s.size - 1)).geoms
                        ((s.layers (s.size - 1)).size)).bezier
                      (not_not.mp hc)
                    refine ⟨b1, ?_, ?_⟩
                    · intro k hk
                      rw [commit_layer_size]
                      have hj := b2 k hk
                      rw [modGeom_layer_size] at hj
                      omega
                    · intro i hi
                      refine (b3 i hi).trans (congrArg (bezier _) ?_)
                      refine (resolveCtrl_congr _ _ _ fun k hk =>
                        commit_geom_point_eq s _ _ _ _ _ ?_ rfl).symm
                      have hj := b2 k hk
                      rw [modGeom_layer_size] at hj
                      exact hj
                · rw [if_neg h7]
                  exact hinv

theorem bezInv_empty : BezInv emptyScene :=
  fun li hli => absurd (hli : li < 0) (Nat.not_lt_zero li)

theorem read_scene_lines_bezInv (cfg : Cfg) (lines : List (List Char)) :
    ∀ (s : Scene), BezInv s → BezInv (read_scene_lines cfg lines s) := by
  induction lines with
  | nil => exact fun s hinv => hinv
  | cons l rest ihl =>
    intro s hinv
    exact ihl _ (parse_line_bezInv_aux cfg (l.length + 1) s l 0 l.length hinv)

/-- C9 (amended): every Bezier geom stored in a parsed scene has at most
MAX_BEZIER_POINT = 11 control points, every stored control index lies
below the layer's committed count, and the 31-entry lookup table equals
the De Casteljau evaluation of the resolved control points at the uniform
parameters i/(BEZIER_LUT_SIZE - 1); the claimed lower bound of 2 control
points does not hold. -/
theorem C9_parsed_beziers_capacity_and_lut (cfg : Cfg) (lines : List (List Char)) :
    BezInv (read_scene_lines cfg lines emptyScene) :=
  read_scene_lines_bezInv cfg lines emptyScene bezInv_empty

theorem atofModel_zero : atofModel ['0'] = 0 := by
  have h1 : atofModel ['0'] = (natOfDigits ['0'] : ℝ) + 0 := rfl
  have h3 : natOfDigits ['0'] = 0 := rfl
  rw [h1, h3]
  norm_num

theorem parse_int_layer0 : parse_int ['L','A','Y','E','R','(','0',')'] 6 8 = (OK, 7, 0) := by
  have hpn : parse_number ['L','A','Y','E','R','(','0',')'] 6 8 = (OK, 7, atofModel ['0']) := rfl
  norm_num [parse_int, hpn, atofModel_zero, truncR, OK]

theorem parse_line_layer0 :
    parse_line (mkCfg 1 1) 9 emptyScene ['L','A','Y','E','R','(','0',')'] 0 8 =
      (OK, 8, ⟨Function.update emptyScene.layers 0
        { emptyScene.layers 0 with fusion := 0, size := 0 }, 1⟩) := by
  simp +decide [parse_line, parse_layer, parse_int_layer0, emptyScene, MAX_LAYER]

/-- C9: the claim's lower bound fails — parsing the two-line scene
`LAYER(0)` / `BEZIER(` commits a Bezier geom whose control sequence has
length 0, below the claimed minimum of 2 (the control-point loop's guard
accepts immediately and parse_bezier commits whatever was read). -/
theorem C9_parser_commits_empty_bezier :
    (read_scene_lines (mkCfg 1 1) [['L','A','Y','E','R','(','0',')'],
      ['B','E','Z','I','E','R','(']] emptyScene).size = 1 ∧
    ((read_scene_lines (mkCfg 1 1) [['L','A','Y','E','R','(','0',')'],
      ['B','E','Z','I','E','R','(']] emptyScene).layers 0).size = 1 ∧
    (((read_scene_lines (mkCfg 1 1) [['L','A','Y','E','R','(','0',')'],
      ['B','E','Z','I','E','R','(']] emptyScene).layers 0).geoms 0).gtype = 2 ∧
    (((read_scene_lines (mkCfg 1 1) [['L','A','Y','E','R','(','0',')'],
      ['B','E','Z','I','E','R','(']] emptyScene).layers 0).geoms 0).bezier.bsize = 0 := by
  have hfold : read_scene_lines (mkCfg 1 1) [['L','A','Y','E','R','(','0',')'],
      ['B','E','Z','I','E','R','(']] emptyScene =
      (parse_line (mkCfg 1 1) 8
        (parse_line (mkCfg 1 1) 9 emptyScene ['L','A','Y','E','R','(','0',')'] 0 8).2.2
        ['B','E','Z','I','E','R','('] 0 7).2.2 := rfl
  rw [hfold, parse_line_layer0]
  simp +decide [parse_line, parse_bezier, parse_bezier_loop, MAX_BEZIER_POINT,
    MAX_GEOMS_PER_LAYER, modLayer, modGeom, set_bbox_bezier, Function.update_same,
    emptyScene, emptyLayer]
